import Mathlib

/-!
# Shallow embedding of the scrimbot command handlers

This file embeds the session state and the command handlers of
`src/bot_service.rs` (a Discord scrim bot driving a dathost game server).
Players are identified by their Discord user id, modelled as `Nat`.
The chat gateway (message sends, reactions), the HTTP transport and the
file writes are external effects with no bearing on the session state;
where a handler's behaviour depends on an external outcome (the captain
coin flip, the random vote tie-break index, an HTTP response status,
whether a long `.start` sequence runs to completion), that outcome is an
explicit parameter of the embedded function.  A Rust `panic!` arising
from `unwrap()` on `None` or from out-of-bounds indexing is modelled by
an `Option` result (`none` = panic) or by an explicit `Bool` panic flag,
as noted on each definition.
-/

namespace Scrimbot

/-- The bot phase enum (`State` in the crate root, used by `bot_service.rs`).
`Queue → MapPick → CaptainPick → Draft → SidePick → Ready`. -/
inductive State where
  | Queue
  | MapPick
  | CaptainPick
  | Draft
  | SidePick
  | Ready
deriving DecidableEq, Repr

/-- The `Draft` struct: captains, the two teams, whose turn it is to pick,
and captain B's chosen starting side (a string, `""`, `"ct"` or `"t"`). -/
structure Draft where
  captain_a : Option Nat
  captain_b : Option Nat
  team_a : List Nat
  team_b : List Nat
  current_picker : Option Nat
  team_b_start_side : String
deriving DecidableEq, Repr

/-- The shared session state: the contents of the serenity `TypeMap` that
`bot_service.rs` reads and writes under the single data lock
(`BotState`, `UserQueue`, `ReadyQueue`, `Draft`, `SteamIdCache`,
`QueueMessages`, `Maps`).  The steam-id cache and the queue-message map are
`HashMap`s in the source; they are modelled as association lists where
insertion conses a new binding (so `List.lookup` sees the latest one) and
removal filters out every binding for the key. -/
structure ScrimState where
  bot_state : State
  user_queue : List Nat
  ready_queue : List Nat
  draft : Draft
  steam_id_cache : List (Nat × String)
  queue_messages : List (Nat × String)
  maps : List String
deriving DecidableEq, Repr

/-- `HashMap::remove` on an association list: drop every binding of the key. -/
def kv_remove (k : Nat) (l : List (Nat × String)) : List (Nat × String) :=
  l.filter (fun p => p.1 ≠ k)

/-- `handle_join` (bot_service.rs:40).  Guards in source order: missing
steam id (the author is absent from `SteamIdCache`), full queue (≥ 10),
already queued; otherwise the author is appended to the queue and, when the
message carried a quoted note, the note is recorded in `QueueMessages`.
The quoted-note extraction (regex match plus 50-character truncation) acts
on the message text only and is abstracted as the `note : Option String`
input.  The optional role assignment at the end touches no session state. -/
def handle_join (author : Nat) (note : Option String) (s : ScrimState) : ScrimState :=
  if (s.steam_id_cache.lookup author).isNone then s
  else if s.user_queue.length ≥ 10 then s
  else if author ∈ s.user_queue then s
  else
    let s1 : ScrimState := { s with user_queue := s.user_queue ++ [author] }
    match note with
    | some n => { s1 with queue_messages := (author, n) :: s1.queue_messages }
    | none => s1

/-- `handle_leave` (bot_service.rs:110).  Valid only in phase `Queue`; fails
if the author is not queued; otherwise removes the author (first position
with a matching id) and the author's stored note. -/
def handle_leave (author : Nat) (s : ScrimState) : ScrimState :=
  if s.bot_state ≠ State.Queue then s
  else if author ∉ s.user_queue then s
  else { s with user_queue := s.user_queue.erase author,
                queue_messages := kv_remove author s.queue_messages }

/-- `handle_clear` (bot_service.rs:168).  Admin-only (the permission check
is external); clears the user queue unconditionally — it checks no phase
and touches neither the ready queue nor the draft nor the notes. -/
def handle_clear (s : ScrimState) : ScrimState :=
  { s with user_queue := [] }

/-- `handle_kick` (bot_service.rs:636).  Admin-only; valid only in phase
`Queue`; fails if the mentioned user is not queued; otherwise removes the
user from the queue.  Unlike `handle_leave` it does not touch
`QueueMessages`. -/
def handle_kick (target : Nat) (s : ScrimState) : ScrimState :=
  if s.bot_state ≠ State.Queue then s
  else if target ∉ s.user_queue then s
  else { s with user_queue := s.user_queue.erase target }

/-- `handle_recover_queue` (bot_service.rs:225).  Admin-only; clears the
queue and the note map, then runs `handle_join` for each mentioned user
(each with that user's note input). -/
def handle_recover_queue (mentions : List (Nat × Option String)) (s : ScrimState) : ScrimState :=
  let s0 : ScrimState := { s with user_queue := [], queue_messages := [] }
  mentions.foldl (fun st m => handle_join m.1 m.2 st) s0

/-- The steam-id regex `^STEAM_[0-5]:[01]:\d+$` of `handle_steam_id`
(bot_service.rs:604). -/
def is_valid_steam_id (sid : String) : Bool :=
  match sid.toList with
  | 'S' :: 'T' :: 'E' :: 'A' :: 'M' :: '_' :: u :: ':' :: a :: ':' :: rest =>
    decide ('0' ≤ u ∧ u ≤ '5') && (a == '0' || a == '1') &&
      (!rest.isEmpty) && rest.all Char.isDigit
  | _ => false

/-- `handle_steam_id` (bot_service.rs:594).  The second whitespace token of
the message is the `arg` input (`none` when the message had no second
token).  A well-formed id is inserted into the cache (overwriting any
previous binding) and the cache is persisted; nothing else changes.
The cache is never shrunk by any handler. -/
def handle_steam_id (author : Nat) (arg : Option String) (s : ScrimState) : ScrimState :=
  match arg with
  | none => s
  | some sid =>
    if !is_valid_steam_id sid then s
    else { s with steam_id_cache := (author, sid) :: s.steam_id_cache }

/-- `handle_add_map` (bot_service.rs:669).  Admin-only; rejects when the
pool already has 26 maps or the name is already present, else appends. -/
def handle_add_map (map_name : String) (s : ScrimState) : ScrimState :=
  if s.maps.length ≥ 26 then s
  else if map_name ∈ s.maps then s
  else { s with maps := s.maps ++ [map_name] }

/-- `handle_remove_map` (bot_service.rs:707).  Admin-only; removes the
named map when present. -/
def handle_remove_map (map_name : String) (s : ScrimState) : ScrimState :=
  if map_name ∉ s.maps then s
  else { s with maps := s.maps.erase map_name }

/-- The ballot letter vector of `handle_start` (bot_service.rs:297):
`let a_to_z = ('a'..'z').collect::<Vec<_>>();`.  The Rust range `'a'..'z'`
is exclusive at the top, so this vector holds the 25 letters `a`–`y`,
not 26. -/
def a_to_z : List Char :=
  (List.range 25).map (fun i => Char.ofNat ('a'.toNat + i))

/-- The ballot-symbol assignment loop of `handle_start`
(bot_service.rs:299-301): for the `i`-th pool map, index `a_to_z[i]`.
`none` models the index-out-of-bounds panic when `i` exceeds the letter
vector. -/
def assign_symbols (maps : List String) : Option (List (Char × String)) :=
  maps.enum.mapM (fun p => (a_to_z.get? p.1).map (fun c => (c, p.2)))

/-- One row of the vote tally (`ReactionResult` struct): a reaction count
and the map it stands for. -/
structure ReactionResult where
  count : Nat
  map : String
deriving DecidableEq, Repr

/-- The maximum reaction count (bot_service.rs:336-340):
`results.iter().max_by(count).unwrap().count`; `none` models the `unwrap`
panic on an empty tally. -/
def max_count (results : List ReactionResult) : Option Nat :=
  match results with
  | [] => none
  | r :: rs => some (rs.foldl (fun acc x => max acc x.count) r.count)

/-- The tied rows (bot_service.rs:341-344): every row whose count equals
the maximum. -/
def final_results (results : List ReactionResult) (mc : Nat) : List ReactionResult :=
  results.filter (fun m => m.count == mc)

/-- The winner selection of `handle_start` (bot_service.rs:345-368).
More than one tied row: index the tied list by the uniformly drawn
`r = gen_range(0, final_results.len())`.  Otherwise take row 0.  `none`
models the panics (`unwrap` of `get`, index 0 of an empty vector). -/
def select_map (results : List ReactionResult) (r : Nat) : Option String :=
  match max_count results with
  | none => none
  | some mc =>
    let fr := final_results results mc
    if fr.length > 1 then (fr.get? r).map ReactionResult.map
    else (fr.get? 0).map ReactionResult.map

/-- The tail of `handle_start` after the vote concludes
(bot_service.rs:369-390): the set-map PUT is sent and its response status
is only `println!`-ed — `set_map_success` is nowhere branched on.  The
state is then unconditionally advanced to `CaptainPick` with the captains
and teams cleared (`current_picker` is left as is). -/
def handle_start_set_map (set_map_success : Bool) (s : ScrimState) : ScrimState :=
  { s with bot_state := State.CaptainPick,
           draft := { s.draft with captain_a := none, captain_b := none,
                                   team_a := [], team_b := [] } }

/-- The session-state effect of the whole `handle_start` (bot_service.rs:258).
Guards: phase must be `Queue` and the queue must hold exactly 10 players
(the author/admin check is external; the in-queue check is dead code since
a failed admin check already returned).  The handler then sets
`MapPick`, runs the ballot and the two waits, and — when it runs to
completion rather than panicking on one of its `unwrap()`s (message send,
empty tally, transport error of the set-map call) — ends in `CaptainPick`
with captains and teams cleared.  `completes` selects between the
completed run and a run that stopped after the `MapPick` assignment. -/
def handle_start_model (completes : Bool) (s : ScrimState) : ScrimState :=
  if s.bot_state ≠ State.Queue then s
  else if s.user_queue.length ≠ 10 then s
  else if completes
    then handle_start_set_map true { s with bot_state := State.MapPick }
  else { s with bot_state := State.MapPick }

/-- `handle_captain` (bot_service.rs:393).  Guards: phase `CaptainPick`,
author queued, author not already `captain_a`.  The author fills
`captain_a` first, else `captain_b`.  Once both are set: on `coin`
(`gen_range(0,2) != 0`) the captains swap, then each captain is appended to
their own team, captain A becomes the current picker and the phase moves to
`Draft`.  The final `match` arm returning `s` is unreachable: it is guarded
by `d1.captain_a.isSome ∧ d1.captain_b.isSome`. -/
def handle_captain (author : Nat) (coin : Bool) (s : ScrimState) : ScrimState :=
  if s.bot_state ≠ State.CaptainPick then s
  else if author ∉ s.user_queue then s
  else if s.draft.captain_a = some author then s
  else
    let d1 : Draft :=
      if s.draft.captain_a = none
      then { s.draft with captain_a := some author }
      else { s.draft with captain_b := some author }
    if d1.captain_a.isSome ∧ d1.captain_b.isSome then
      let d2 : Draft :=
        if coin
        then { d1 with captain_a := d1.captain_b, captain_b := d1.captain_a }
        else d1
      match d2.captain_a, d2.captain_b with
      | some ca, some cb =>
        { s with draft := { d2 with team_a := d2.team_a ++ [ca],
                                    team_b := d2.team_b ++ [cb],
                                    current_picker := some ca },
                 bot_state := State.Draft }
      | _, _ => s
    else { s with draft := d1 }

/-- `handle_pick` (bot_service.rs:452).  Guards in source order: phase
`Draft`, target queued, `current_picker.unwrap()` (panic on `none`,
modelled by the `true` flag), the captain `unwrap()`s, author is a captain,
author's turn, target not yet on a team.  The target joins the acting
captain's team and the turn toggles; when both teams reach five the phase
moves to `SidePick` (the optional side-pick reactions touch no session
state).  The returned `Bool` is the panic flag. -/
def handle_pick (author target : Nat) (s : ScrimState) : ScrimState × Bool :=
  if s.bot_state ≠ State.Draft then (s, false)
  else if target ∉ s.user_queue then (s, false)
  else
    match s.draft.current_picker with
    | none => (s, true)
    | some current =>
      match s.draft.captain_a, s.draft.captain_b with
      | some ca, some cb =>
        if author ≠ ca ∧ author ≠ cb then (s, false)
        else if current ≠ author then (s, false)
        else if target ∈ s.draft.team_a ∨ target ∈ s.draft.team_b then (s, false)
        else
          let d := s.draft
          let d1 : Draft :=
            if d.captain_a = some current
            then { d with team_a := d.team_a ++ [target], current_picker := d.captain_b }
            else { d with team_b := d.team_b ++ [target], current_picker := d.captain_a }
          if d1.team_a.length = 5 ∧ d1.team_b.length = 5
          then ({ s with draft := d1, bot_state := State.SidePick }, false)
          else ({ s with draft := d1 }, false)
      | _, _ => (s, true)

/-- Common body of `handle_ct_option` / `handle_t_option`
(bot_service.rs:558, 576): phase must be `SidePick`, the author must be
captain B (`unwrap()` panic on a missing captain B, modelled by the flag);
the side is recorded and the phase moves to `Ready`. -/
def handle_side_option (side : String) (author : Nat) (s : ScrimState) : ScrimState × Bool :=
  if s.bot_state ≠ State.SidePick then (s, false)
  else
    match s.draft.captain_b with
    | none => (s, true)
    | some cb =>
      if author ≠ cb then (s, false)
      else ({ s with draft := { s.draft with team_b_start_side := side },
                     bot_state := State.Ready }, false)

/-- `handle_ct_option` (bot_service.rs:558). -/
def handle_ct_option (author : Nat) (s : ScrimState) : ScrimState × Bool :=
  handle_side_option "ct" author s

/-- `handle_t_option` (bot_service.rs:576). -/
def handle_t_option (author : Nat) (s : ScrimState) : ScrimState × Bool :=
  handle_side_option "t" author s

/-- The steam-id anonymization of the launch path (bot_service.rs:795,807):
`steam_id.replace_range(6..7, "1")` rewrites the character at index 6 to
the digit `1` (steam ids are ASCII, so byte index = character index). -/
def anonymize (sid : String) : String :=
  String.mk (sid.toList.take 6 ++ '1' :: sid.toList.drop 7)

/-- The per-member cache lookups of the launch path: the source iterates
the team and `unwrap()`s each `steam_id_cache.get` — the first missing
entry panics, modelled by `none`. -/
def lookup_ids (cache : List (Nat × String)) : List Nat → Option (List String)
  | [] => some []
  | u :: us =>
    match cache.lookup u, lookup_ids cache us with
    | some v, some vs => some (v :: vs)
    | _, _ => none

/-- The launch-time roster resolution (bot_service.rs:790-813): look every
team member up in the steam-id cache, then anonymize each id. -/
def launch_lookups (cache : List (Nat × String)) (team : List Nat) : Option (List String) :=
  (lookup_ids cache team).map (fun ids => ids.map anonymize)

/-- The full session reset at the end of a launch (bot_service.rs:934-948):
queue, ready queue, note map cleared; captains, teams and picker cleared
(`team_b_start_side` is left as is); phase back to `Queue`. -/
def reset_session (s : ScrimState) : ScrimState :=
  { s with user_queue := [],
           ready_queue := [],
           draft := { s.draft with team_a := [], team_b := [],
                                   captain_a := none, captain_b := none,
                                   current_picker := none },
           bot_state := State.Queue,
           queue_messages := [] }

/-- `handle_ready` (bot_service.rs:752).  Guards: phase `Ready`, author
queued, not already ready; then the author is appended to the ready queue.
When the ready queue reaches 10 the launch runs: the roster lookups
(panic on a missing steam id, before any network call), the delimited
id strings (slicing `[..len - 1]` panics when a team is empty), then
exactly one start-match POST.  `launch_success` is the response status;
both status branches only send chat messages, and the full session reset
follows unconditionally.  Result: (state, number of start-match POSTs
attempted, panic flag); a panic leaves the state as mutated so far. -/
def handle_ready (author : Nat) (launch_success : Bool) (s : ScrimState) :
    ScrimState × Nat × Bool :=
  if s.bot_state ≠ State.Ready then (s, 0, false)
  else if author ∉ s.user_queue then (s, 0, false)
  else if author ∈ s.ready_queue then (s, 0, false)
  else
    let s1 : ScrimState := { s with ready_queue := s.ready_queue ++ [author] }
    if s1.ready_queue.length ≥ 10 then
      match launch_lookups s1.steam_id_cache s1.draft.team_a,
            launch_lookups s1.steam_id_cache s1.draft.team_b with
      | some ids_a, some ids_b =>
        if ids_a.isEmpty || ids_b.isEmpty then (s1, 0, true)
        else (reset_session s1, 1, false)
      | _, _ => (s1, 0, true)
    else (s1, 0, false)

/-- `handle_unready` (bot_service.rs:952).  Guards: phase `Ready`, author
queued.  Then — with no membership check — the author's position in the
ready queue is `unwrap()`-ed: `none` models the panic when the author is
not ready; otherwise the author is removed. -/
def handle_unready (author : Nat) (s : ScrimState) : Option ScrimState :=
  if s.bot_state ≠ State.Ready then some s
  else if author ∉ s.user_queue then some s
  else
    match s.ready_queue.findIdx? (fun r => r = author) with
    | none => none
    | some i => some { s with ready_queue := s.ready_queue.eraseIdx i }

/-- `handle_cancel` (bot_service.rs:970).  Admin-only; valid only outside
phase `Queue`.  Clears the ready queue, the teams, the captains and the
picker (`team_b_start_side` and the user queue are untouched) and returns
the phase to `Queue`. -/
def handle_cancel (s : ScrimState) : ScrimState :=
  if s.bot_state = State.Queue then s
  else { s with ready_queue := [],
                draft := { s.draft with team_a := [], team_b := [],
                                        captain_a := none, captain_b := none,
                                        current_picker := none },
                bot_state := State.Queue }

/-- One state-mutating bot command, with every externally decided outcome
(notes, coin flips, HTTP statuses, run-to-completion of `.start`) carried
as data. -/
inductive Cmd where
  | join (author : Nat) (note : Option String)
  | leave (author : Nat)
  | clear
  | recover (mentions : List (Nat × Option String))
  | steamid (author : Nat) (arg : Option String)
  | kick (target : Nat)
  | addmap (m : String)
  | removemap (m : String)
  | start (completes : Bool)
  | captain (author : Nat) (coin : Bool)
  | pick (author target : Nat)
  | ct_side (author : Nat)
  | t_side (author : Nat)
  | ready (author : Nat) (launch_success : Bool)
  | unready (author : Nat)
  | cancel
deriving DecidableEq, Repr

/-- The session-state effect of one command.  Handlers whose panic happens
before any mutation leave the state unchanged; `handle_ready` returns the
partially mutated state on its launch-path panic. -/
def step (c : Cmd) (s : ScrimState) : ScrimState :=
  match c with
  | .join a n => handle_join a n s
  | .leave a => handle_leave a s
  | .clear => handle_clear s
  | .recover ms => handle_recover_queue ms s
  | .steamid a arg => handle_steam_id a arg s
  | .kick t => handle_kick t s
  | .addmap m => handle_add_map m s
  | .removemap m => handle_remove_map m s
  | .start b => handle_start_model b s
  | .captain a coin => handle_captain a coin s
  | .pick a t => (handle_pick a t s).1
  | .ct_side a => (handle_ct_option a s).1
  | .t_side a => (handle_t_option a s).1
  | .ready a b => (handle_ready a b s).1
  | .unready a =>
    match handle_unready a s with
    | some s2 => s2
    | none => s
  | .cancel => handle_cancel s

/-- Run a command sequence. -/
def run (cs : List Cmd) (s : ScrimState) : ScrimState :=
  cs.foldl (fun st c => step c st) s

/-- A valid process-start state: phase `Queue` with empty queue, ready
queue and draft seats (`main.rs` inserts exactly these); the persisted
stores (steam ids, maps) and the leftover `team_b_start_side` are
arbitrary, as they are loaded from disk. -/
def startup (s : ScrimState) : Prop :=
  s.bot_state = State.Queue ∧ s.user_queue = [] ∧ s.ready_queue = [] ∧
  s.draft.captain_a = none ∧ s.draft.captain_b = none ∧
  s.draft.team_a = [] ∧ s.draft.team_b = [] ∧ s.draft.current_picker = none

instance (s : ScrimState) : Decidable (startup s) := by
  unfold startup; infer_instance

/-- The reachable session states: a startup state followed by any sequence
of command steps (all commands serialize on the one data lock, so the
interleaving-free step semantics is faithful). -/
inductive Reachable : ScrimState → Prop where
  | init (s0 : ScrimState) (h : startup s0) : Reachable s0
  | next (c : Cmd) (s : ScrimState) (h : Reachable s) : Reachable (step c s)

/-- The success guards of one `.pick`, as `handle_pick` checks them. -/
def pick_ok (s : ScrimState) (a t : Nat) : Prop :=
  s.bot_state = State.Draft ∧ t ∈ s.user_queue ∧
  s.draft.current_picker = some a ∧
  (s.draft.captain_a = some a ∨ s.draft.captain_b = some a) ∧
  t ∉ s.draft.team_a ∧ t ∉ s.draft.team_b

instance (s : ScrimState) (a t : Nat) : Decidable (pick_ok s a t) := by
  unfold pick_ok; infer_instance

/-- A sequence of picks each of which passes every `handle_pick` guard at
its point of the run. -/
inductive ValidPicks : ScrimState → List (Nat × Nat) → Prop where
  | nil (s : ScrimState) : ValidPicks s []
  | cons (s : ScrimState) (a t : Nat) (ps : List (Nat × Nat))
      (h : pick_ok s a t)
      (hrest : ValidPicks ((handle_pick a t s).1) ps) :
      ValidPicks s ((a, t) :: ps)

/-- Fold a list of picks through `handle_pick`. -/
def pick_run (ps : List (Nat × Nat)) (s : ScrimState) : ScrimState :=
  ps.foldl (fun st p => (handle_pick p.1 p.2 st).1) s

/-- The draft state right after `handle_captain` has registered both
captains, flipped the coin and seeded the teams: phase `Draft`,
`team_a = [captain A]`, `team_b = [captain B]`, captain A to pick. -/
def seeded (s : ScrimState) (ca cb : Nat) : Prop :=
  s.bot_state = State.Draft ∧ s.draft.captain_a = some ca ∧
  s.draft.captain_b = some cb ∧ ca ≠ cb ∧
  s.draft.team_a = [ca] ∧ s.draft.team_b = [cb] ∧
  s.draft.current_picker = some ca

instance (s : ScrimState) (ca cb : Nat) : Decidable (seeded s ca cb) := by
  unfold seeded; infer_instance

/-- An optional seat holder is backed by the steam-id cache. -/
def opt_in_cache (cache : List (Nat × String)) (o : Option Nat) : Prop :=
  ∀ c, o = some c → (cache.lookup c).isSome = true

/-- Everybody the launch path could look up — queued players, drafted
players, captains — has a steam-id cache entry. -/
def steam_inv (s : ScrimState) : Prop :=
  (∀ u ∈ s.user_queue, (s.steam_id_cache.lookup u).isSome = true) ∧
  (∀ u ∈ s.draft.team_a, (s.steam_id_cache.lookup u).isSome = true) ∧
  (∀ u ∈ s.draft.team_b, (s.steam_id_cache.lookup u).isSome = true) ∧
  opt_in_cache s.steam_id_cache s.draft.captain_a ∧
  opt_in_cache s.steam_id_cache s.draft.captain_b

/-- In phase `Queue` the ready queue is empty (the phase only returns to
`Queue` through a reset or a cancel, both of which clear it, and `.ready`
only acts in phase `Ready`). -/
def queue_phase_no_ready (s : ScrimState) : Prop :=
  s.bot_state = State.Queue → s.ready_queue = []

/-- An empty draft, as `main.rs` seeds it. -/
def empty_draft : Draft :=
  { captain_a := none, captain_b := none, team_a := [], team_b := [],
    current_picker := none, team_b_start_side := "" }

/-- A ten-player steam-id cache used by the concrete examples. -/
def cache10 : List (Nat × String) :=
  [(1, "STEAM_0:1:101"), (2, "STEAM_0:1:102"), (3, "STEAM_0:1:103"),
   (4, "STEAM_0:1:104"), (5, "STEAM_0:1:105"), (6, "STEAM_0:1:106"),
   (7, "STEAM_0:1:107"), (8, "STEAM_0:1:108"), (9, "STEAM_0:1:109"),
   (10, "STEAM_0:1:110")]

/-- A process-start state whose persisted stores already hold ten steam
ids and one map. -/
def s_startup : ScrimState :=
  { bot_state := State.Queue, user_queue := [], ready_queue := [],
    draft := empty_draft, steam_id_cache := cache10,
    queue_messages := [], maps := ["de_dust2"] }

/-- Mid-`.start` state: the vote is running (phase `MapPick`), ten players
queued. -/
def s_mappick : ScrimState :=
  { bot_state := State.MapPick, user_queue := [1, 2, 3, 4, 5, 6, 7, 8, 9, 10],
    ready_queue := [], draft := empty_draft, steam_id_cache := cache10,
    queue_messages := [], maps := ["de_dust2"] }

/-- A ready-check state in which player 1 is queued but has not readied. -/
def s_ready_ex : ScrimState :=
  { bot_state := State.Ready, user_queue := [1], ready_queue := [],
    draft := empty_draft, steam_id_cache := cache10,
    queue_messages := [], maps := [] }

/-- A phase-`Queue` state in which player 1 is queued with a stored note. -/
def s_queue_note : ScrimState :=
  { bot_state := State.Queue, user_queue := [1, 2], ready_queue := [],
    draft := empty_draft, steam_id_cache := cache10,
    queue_messages := [(1, "available at 9pm")], maps := [] }

/-- A completed 5v5 draft in phase `Ready` with nine players already
readied; player 10's `.ready` completes the check. -/
def s_ready_full : ScrimState :=
  { bot_state := State.Ready,
    user_queue := [1, 2, 3, 4, 5, 6, 7, 8, 9, 10],
    ready_queue := [1, 2, 3, 4, 5, 6, 7, 8, 9],
    draft := { captain_a := some 1, captain_b := some 2,
               team_a := [1, 3, 5, 7, 9], team_b := [2, 4, 6, 8, 10],
               current_picker := none, team_b_start_side := "ct" },
    steam_id_cache := cache10, queue_messages := [], maps := [] }

/-- A 25-map pool: the largest pool the ballot letters can serve. -/
def pool25 : List String :=
  (List.range 25).map (fun i => String.append "map" (toString i))

/-- A 26-map pool: the largest pool `handle_add_map` admits. -/
def pool26 : List String := pool25 ++ ["map25"]

/-- A state holding the 25-map pool. -/
def s_pool25 : ScrimState :=
  { bot_state := State.Queue, user_queue := [], ready_queue := [],
    draft := empty_draft, steam_id_cache := cache10,
    queue_messages := [], maps := pool25 }

/-- The spec's example vote tally: A has 3 reactions, B and C have 5. -/
def tally_abc : List ReactionResult :=
  [{ count := 3, map := "A" }, { count := 5, map := "B" }, { count := 5, map := "C" }]

/-- A full session trace: ten joins, `.start`, captains 1 and 2 (no swap),
eight picks, captain 2 takes CT, player 1 readies, then an admin `.clear`
while the ready check is open. -/
def c5_cmds : List Cmd :=
  [Cmd.join 1 none, Cmd.join 2 none, Cmd.join 3 none, Cmd.join 4 none,
   Cmd.join 5 none, Cmd.join 6 none, Cmd.join 7 none, Cmd.join 8 none,
   Cmd.join 9 none, Cmd.join 10 none,
   Cmd.start true, Cmd.captain 1 false, Cmd.captain 2 false,
   Cmd.pick 1 3, Cmd.pick 2 4, Cmd.pick 1 5, Cmd.pick 2 6,
   Cmd.pick 1 7, Cmd.pick 2 8, Cmd.pick 1 9, Cmd.pick 2 10,
   Cmd.ct_side 2, Cmd.ready 1 true, Cmd.clear]

/-- The state the trace above reaches. -/
def c5_state : ScrimState := run c5_cmds s_startup

/-- A seeded draft state used to witness the eight-pick theorem. -/
def s_seeded : ScrimState :=
  { bot_state := State.Draft, user_queue := [1, 2, 3, 4, 5, 6, 7, 8, 9, 10],
    ready_queue := [],
    draft := { captain_a := some 1, captain_b := some 2, team_a := [1],
               team_b := [2], current_picker := some 1, team_b_start_side := "" },
    steam_id_cache := cache10, queue_messages := [], maps := [] }

/-- The eight concrete picks used to witness the eight-pick theorem. -/
def picks8 : List (Nat × Nat) :=
  [(1, 3), (2, 4), (1, 5), (2, 6), (1, 7), (2, 8), (1, 9), (2, 10)]

/-- The fold that realizes `max_by` on counts dominates its seed. -/
theorem le_foldl_max_count (rs : List ReactionResult) (a : Nat) :
    a ≤ rs.foldl (fun acc x => max acc x.count) a := by
  induction rs generalizing a with
  | nil => simp
  | cons h t ih => exact le_trans (le_max_left a h.count) (ih (max a h.count))

/-- The fold that realizes `max_by` on counts dominates every element. -/
theorem mem_le_foldl_max_count (rs : List ReactionResult) (a : Nat) :
    ∀ x ∈ rs, x.count ≤ rs.foldl (fun acc y => max acc y.count) a := by
  induction rs generalizing a with
  | nil => simp
  | cons h t ih =>
    intro x hx
    rcases List.mem_cons.mp hx with rfl | hx
    · exact le_trans (le_max_right a x.count) (le_foldl_max_count t (max a x.count))
    · exact ih (max a h.count) x hx

/-- `max_count` is an upper bound of all tallied counts. -/
theorem max_count_is_ub (results : List ReactionResult) (mc : Nat)
    (h : max_count results = some mc) : ∀ y ∈ results, y.count ≤ mc := by
  cases results with
  | nil => simp [max_count] at h
  | cons r rs =>
    simp only [max_count, Option.some.injEq] at h
    subst h
    intro y hy
    rcases List.mem_cons.mp hy with rfl | hy
    · exact le_foldl_max_count rs y.count
    · exact mem_le_foldl_max_count rs r.count y hy

/-- `select_map`, unfolded at a known maximum count. -/
theorem select_map_eq (results : List ReactionResult) (mc : Nat)
    (h : max_count results = some mc) (r : Nat) :
    select_map results r =
      if (final_results results mc).length > 1
      then ((final_results results mc).get? r).map ReactionResult.map
      else ((final_results results mc).get? 0).map ReactionResult.map := by
  unfold select_map
  rw [h]

/-- Claim C3: for a non-empty tally, the selected map is always the map of
a row tied at the maximum count (never a non-maximum map); the uniform
draw `r` indexes exactly the tied rows, and when exactly one row is tied
the selection is the same for every draw. -/
theorem vote_selects_only_tied_maximum (results : List ReactionResult) (r mc : Nat)
    (hmc : max_count results = some mc)
    (hr : r < (final_results results mc).length) :
    ∃ x : ReactionResult,
      (final_results results mc).get? r = some x ∧
      select_map results r = some x.map ∧
      x ∈ results ∧ x.count = mc ∧
      (∀ y ∈ results, y.count ≤ mc) ∧
      ((final_results results mc).length = 1 →
        ∀ q : Nat, select_map results q = some x.map) := by
  have hget : (final_results results mc).get? r =
      some ((final_results results mc).get ⟨r, hr⟩) := List.get?_eq_get hr
  set x := (final_results results mc).get ⟨r, hr⟩ with hxdef
  have hmemfr : x ∈ final_results results mc := List.get_mem _ r hr
  have hmem : x ∈ results ∧ x.count = mc := by
    simpa [final_results] using hmemfr
  refine ⟨x, hget, ?_, hmem.1, hmem.2, max_count_is_ub results mc hmc, ?_⟩
  · rw [select_map_eq results mc hmc r]
    by_cases hlen : (final_results results mc).length > 1
    · rw [if_pos hlen, hget]; rfl
    · have hr0 : r = 0 := by omega
      rw [if_neg hlen, ← hr0, hget]; rfl
  · intro hlen1 q
    rw [select_map_eq results mc hmc q]
    have hngt : ¬ (final_results results mc).length > 1 := by omega
    have hr0 : r = 0 := by omega
    rw [if_neg hngt, ← hr0, hget]; rfl

/-- Witness for the C3 theorem at the spec's example tally
`A:3, B:5, C:5` with draw index 1 (which selects C). -/
theorem vote_selects_only_tied_maximum_witness :
    max_count tally_abc = some 5 ∧ 1 < (final_results tally_abc 5).length ∧
    (∃ x : ReactionResult,
      (final_results tally_abc 5).get? 1 = some x ∧
      select_map tally_abc 1 = some x.map ∧
      x ∈ tally_abc ∧ x.count = 5 ∧
      (∀ y ∈ tally_abc, y.count ≤ 5) ∧
      ((final_results tally_abc 5).length = 1 →
        ∀ q : Nat, select_map tally_abc q = some x.map)) :=
  ⟨by decide, by decide,
   vote_selects_only_tied_maximum tally_abc 1 5 (by decide) (by decide)⟩

/-- A successful roster lookup of a non-empty team yields a non-empty id
list. -/
theorem lookup_ids_ne_nil (cache : List (Nat × String)) (team : List Nat)
    (l : List String) (hteam : team ≠ [])
    (h : lookup_ids cache team = some l) : l ≠ [] := by
  cases team with
  | nil => exact absurd rfl hteam
  | cons x xs =>
    unfold lookup_ids at h
    cases hx : cache.lookup x with
    | none => rw [hx] at h; simp at h
    | some v =>
      rw [hx] at h
      cases hxs : lookup_ids cache xs with
      | none => rw [hxs] at h; simp at h
      | some ys =>
        rw [hxs] at h
        simp only [Option.some.injEq] at h
        simp [← h]

/-- Claim C1: in phase `Ready`, the tenth `.ready` makes exactly one
start-match attempt, and the session is fully reset afterwards — queue,
ready set and draft cleared, phase back to `Queue` — for a success and a
failure response alike. -/
theorem ready_tenth_launches_once_and_resets (s : ScrimState) (author : Nat)
    (b : Bool)
    (hphase : s.bot_state = State.Ready)
    (hq : author ∈ s.user_queue)
    (hnr : author ∉ s.ready_queue)
    (hlen : s.ready_queue.length = 9)
    (hta : s.draft.team_a ≠ [])
    (htb : s.draft.team_b ≠ [])
    (hla : (launch_lookups s.steam_id_cache s.draft.team_a).isSome = true)
    (hlb : (launch_lookups s.steam_id_cache s.draft.team_b).isSome = true) :
    handle_ready author b s =
      (reset_session { s with ready_queue := s.ready_queue ++ [author] }, 1, false) ∧
    (handle_ready author b s).1.user_queue = [] ∧
    (handle_ready author b s).1.ready_queue = [] ∧
    (handle_ready author b s).1.draft.team_a = [] ∧
    (handle_ready author b s).1.draft.team_b = [] ∧
    (handle_ready author b s).1.draft.captain_a = none ∧
    (handle_ready author b s).1.draft.captain_b = none ∧
    (handle_ready author b s).1.draft.current_picker = none ∧
    (handle_ready author b s).1.bot_state = State.Queue ∧
    (handle_ready author b s).2.1 = 1 ∧
    handle_ready author true s = handle_ready author false s := by
  have key : ∀ b' : Bool, handle_ready author b' s =
      (reset_session { s with ready_queue := s.ready_queue ++ [author] }, 1, false) := by
    intro b'
    obtain ⟨la, hla'⟩ := Option.isSome_iff_exists.mp hla
    obtain ⟨lb, hlb'⟩ := Option.isSome_iff_exists.mp hlb
    have hla_ne : la ≠ [] := by
      unfold launch_lookups at hla'
      cases hm : lookup_ids s.steam_id_cache s.draft.team_a with
      | none => rw [hm] at hla'; simp at hla'
      | some l0 =>
        rw [hm] at hla'
        have h2 : List.map anonymize l0 = la := by simpa using hla'
        have h0 := lookup_ids_ne_nil _ _ _ hta hm
        intro hnil
        rw [← h2] at hnil
        exact h0 (List.map_eq_nil_iff.mp hnil)
    have hlb_ne : lb ≠ [] := by
      unfold launch_lookups at hlb'
      cases hm : lookup_ids s.steam_id_cache s.draft.team_b with
      | none => rw [hm] at hlb'; simp at hlb'
      | some l0 =>
        rw [hm] at hlb'
        have h2 : List.map anonymize l0 = lb := by simpa using hlb'
        have h0 := lookup_ids_ne_nil _ _ _ htb hm
        intro hnil
        rw [← h2] at hnil
        exact h0 (List.map_eq_nil_iff.mp hnil)
    unfold handle_ready
    rw [if_neg (by simp [hphase]), if_neg (by simpa using hq),
      if_neg (by simpa using hnr)]
    simp only [if_pos (by simp [hlen] : ({ s with ready_queue := s.ready_queue ++ [author] } : ScrimState).ready_queue.length ≥ 10)]
    simp only [hla', hlb']
    rw [if_neg (by simp [hla_ne, hlb_ne, List.isEmpty_iff])]
  refine ⟨key b, ?_, ?_, ?_, ?_, ?_, ?_, ?_, ?_, ?_, by rw [key true, key false]⟩
    <;> rw [key b] <;> simp [reset_session]

/-- Witness for the C1 theorem: player 10 completes the ready check of the
concrete full draft, with a failure response from the start-match call. -/
theorem ready_tenth_launches_once_and_resets_witness :
    (s_ready_full.bot_state = State.Ready ∧ 10 ∈ s_ready_full.user_queue ∧
     10 ∉ s_ready_full.ready_queue ∧ s_ready_full.ready_queue.length = 9 ∧
     s_ready_full.draft.team_a ≠ [] ∧ s_ready_full.draft.team_b ≠ [] ∧
     (launch_lookups s_ready_full.steam_id_cache s_ready_full.draft.team_a).isSome = true ∧
     (launch_lookups s_ready_full.steam_id_cache s_ready_full.draft.team_b).isSome = true) ∧
    handle_ready 10 false s_ready_full =
      (reset_session { s_ready_full with
        ready_queue := s_ready_full.ready_queue ++ [10] }, 1, false) :=
  ⟨⟨rfl, by decide, by decide, by decide, by decide, by decide, by decide, by decide⟩,
   (ready_tenth_launches_once_and_resets s_ready_full 10 false rfl (by decide)
     (by decide) (by decide) (by decide) (by decide) (by decide) (by decide)).1⟩

/-- Claim C2, counterexample: with ten players queued and the vote
concluded (phase `MapPick`), a failing set-map call still advances the
phase to `CaptainPick` — the claim says the transition happens only when
the call succeeds. -/
theorem set_map_failure_still_advances_phase :
    s_mappick.bot_state = State.MapPick ∧
    (handle_start_set_map false s_mappick).bot_state = State.CaptainPick :=
  ⟨rfl, rfl⟩

/-- Claim C2, amended: the status of the set-map call is only logged; once
the call returns, the whole state effect — including the
`MapPicking → CaptainPick` transition — is the same for a success and a
failure status.  Only a transport-level panic (`unwrap` of the send)
aborts the sequence. -/
theorem set_map_phase_advance_unconditional (ok : Bool) (s : ScrimState) :
    handle_start_set_map ok s = handle_start_set_map true s ∧
    (handle_start_set_map ok s).bot_state = State.CaptainPick :=
  ⟨rfl, rfl⟩

/-- Claim C4: `handle_add_map` admits a 26th map, but the ballot letter
vector of `handle_start` — built from the exclusive range `'a'..'z'` —
holds only 25 letters, so the symbol assignment for a 26-map pool indexes
out of bounds (modelled by `none`) and panics; a 25-map pool is the
largest that succeeds. -/
theorem ballot_letters_off_by_one :
    a_to_z.length = 25 ∧
    (handle_add_map "map25" s_pool25).maps = pool26 ∧
    pool26.length = 26 ∧
    assign_symbols pool26 = none ∧
    (assign_symbols pool25).isSome = true := by
  refine ⟨by decide, by decide, by decide, by decide, by decide⟩

/-- Claim C6: in phase `Ready`, `.unready` by a queued player who is not
in the ready set panics (`unwrap()` of a `None` position) instead of
reporting a NotReady error — modelled by the `none` result; a player who
is in the ready set is removed from it as the claim says. -/
theorem unready_not_ready_panics :
    handle_unready 1 s_ready_ex = none ∧
    handle_unready 1 { s_ready_ex with ready_queue := [1] } =
      some { s_ready_ex with ready_queue := [] } := by
  refine ⟨by decide, by decide⟩

/-- Claim C7, counterexample: player 1 is queued with a stored note; an
admin `.kick 1` removes the player from the queue but leaves the note in
`QueueMessages`, while `.leave` by the same player removes both — so kick
does not act "exactly as leave does". -/
theorem kick_keeps_note_leave_removes_note :
    s_queue_note.queue_messages = [(1, "available at 9pm")] ∧
    (handle_kick 1 s_queue_note).user_queue = [2] ∧
    (handle_kick 1 s_queue_note).queue_messages = [(1, "available at 9pm")] ∧
    (handle_leave 1 s_queue_note).user_queue = [2] ∧
    (handle_leave 1 s_queue_note).queue_messages = [] := by
  refine ⟨by decide, by decide, by decide, by decide, by decide⟩

/-- Claim C7, amended: in phase `Queue`, an admin kick of a queued player
removes the player from the queue exactly as leave does, but unlike leave
it leaves the player's stored free-text note in place. -/
theorem kick_removes_player_but_not_note (t : Nat) (s : ScrimState)
    (h1 : s.bot_state = State.Queue) (h2 : t ∈ s.user_queue) :
    (handle_kick t s).user_queue = s.user_queue.erase t ∧
    (handle_kick t s).queue_messages = s.queue_messages ∧
    (handle_leave t s).user_queue = s.user_queue.erase t ∧
    (handle_leave t s).queue_messages = kv_remove t s.queue_messages := by
  refine ⟨?_, ?_, ?_, ?_⟩ <;> simp [handle_kick, handle_leave, h1, h2]

/-- Witness for the amended C7 theorem at the concrete state. -/
theorem kick_removes_player_but_not_note_witness :
    s_queue_note.bot_state = State.Queue ∧ 1 ∈ s_queue_note.user_queue ∧
    ((handle_kick 1 s_queue_note).user_queue = s_queue_note.user_queue.erase 1 ∧
     (handle_kick 1 s_queue_note).queue_messages = s_queue_note.queue_messages ∧
     (handle_leave 1 s_queue_note).user_queue = s_queue_note.user_queue.erase 1 ∧
     (handle_leave 1 s_queue_note).queue_messages = kv_remove 1 s_queue_note.queue_messages) :=
  ⟨by decide, by decide,
   kick_removes_player_but_not_note 1 s_queue_note (by decide) (by decide)⟩

/-- Claim C8: an admin cancel from any non-`Queue` phase clears the ready
set and the draft seats (captains, teams, current picker), returns the
phase to `Queue`, and leaves the queue membership exactly as it was. -/
theorem cancel_resets_draft_keeps_queue (s : ScrimState)
    (h : s.bot_state ≠ State.Queue) :
    (handle_cancel s).ready_queue = [] ∧
    (handle_cancel s).draft.captain_a = none ∧
    (handle_cancel s).draft.captain_b = none ∧
    (handle_cancel s).draft.team_a = [] ∧
    (handle_cancel s).draft.team_b = [] ∧
    (handle_cancel s).draft.current_picker = none ∧
    (handle_cancel s).bot_state = State.Queue ∧
    (handle_cancel s).user_queue = s.user_queue := by
  refine ⟨?_, ?_, ?_, ?_, ?_, ?_, ?_, ?_⟩ <;> simp [handle_cancel, h]

/-- Witness for the C8 theorem at the concrete ready-check state. -/
theorem cancel_resets_draft_keeps_queue_witness :
    s_ready_full.bot_state ≠ State.Queue ∧
    ((handle_cancel s_ready_full).ready_queue = [] ∧
     (handle_cancel s_ready_full).draft.captain_a = none ∧
     (handle_cancel s_ready_full).draft.captain_b = none ∧
     (handle_cancel s_ready_full).draft.team_a = [] ∧
     (handle_cancel s_ready_full).draft.team_b = [] ∧
     (handle_cancel s_ready_full).draft.current_picker = none ∧
     (handle_cancel s_ready_full).bot_state = State.Queue ∧
     (handle_cancel s_ready_full).user_queue = s_ready_full.user_queue) :=
  ⟨by decide, cancel_resets_draft_keeps_queue s_ready_full (by decide)⟩

/-- Effect of a successful `.pick` by captain A when the teams do not
thereby reach five a side: the target joins team A and the turn passes to
captain B. -/
theorem pick_step_a (s : ScrimState) (ca cb t : Nat) (xa xb : List Nat)
    (hst : s.bot_state = State.Draft)
    (hca : s.draft.captain_a = some ca)
    (hcb : s.draft.captain_b = some cb)
    (hta : s.draft.team_a = xa)
    (htb : s.draft.team_b = xb)
    (hcur : s.draft.current_picker = some ca)
    (hq : t ∈ s.user_queue)
    (hna : t ∉ xa)
    (hnb : t ∉ xb)
    (hlen : ¬((xa ++ [t]).length = 5 ∧ xb.length = 5)) :
    (handle_pick ca t s).1 =
      { s with draft := { s.draft with team_a := xa ++ [t],
                                       current_picker := some cb } } := by
  obtain ⟨bs, q, rq, ⟨oca, ocb, ta, tb, cur, side⟩, cache, msgs, mp⟩ := s
  simp only at hst hca hcb hta htb hcur hq
  subst hst hca hcb hta htb hcur
  simp only [handle_pick, ne_eq, not_true_eq_false, if_false, ite_false,
    reduceCtorEq, not_false_eq_true, ite_true, if_true, hq, not_not,
    Option.some.injEq, and_true, true_and, and_self, not_true, hna, hnb,
    or_self, if_neg hlen]
  simp [hq, hna, hnb, hlen]

/-- Effect of a successful `.pick` by captain B when the teams do not
thereby reach five a side: the target joins team B and the turn passes to
captain A. -/
theorem pick_step_b (s : ScrimState) (ca cb t : Nat) (xa xb : List Nat)
    (hab : ca ≠ cb)
    (hst : s.bot_state = State.Draft)
    (hca : s.draft.captain_a = some ca)
    (hcb : s.draft.captain_b = some cb)
    (hta : s.draft.team_a = xa)
    (htb : s.draft.team_b = xb)
    (hcur : s.draft.current_picker = some cb)
    (hq : t ∈ s.user_queue)
    (hna : t ∉ xa)
    (hnb : t ∉ xb)
    (hlen : ¬(xa.length = 5 ∧ (xb ++ [t]).length = 5)) :
    (handle_pick cb t s).1 =
      { s with draft := { s.draft with team_b := xb ++ [t],
                                       current_picker := some ca } } := by
  obtain ⟨bs, q, rq, ⟨oca, ocb, ta, tb, cur, side⟩, cache, msgs, mp⟩ := s
  simp only at hst hca hcb hta htb hcur hq
  subst hst hca hcb hta htb hcur
  have hlen3 : ¬(ta.length = 5 ∧ tb.length = 4) := by
    intro hcontra
    exact hlen ⟨hcontra.1, by simp [hcontra.2]⟩
  simp [handle_pick, hq, hna, hnb, hlen3, hab, Ne.symm hab]

/-- Effect of the eighth successful `.pick` (by captain B): both teams
reach five a side and the phase moves to `SidePick`. -/
theorem pick_step_b_last (s : ScrimState) (ca cb t : Nat) (xa xb : List Nat)
    (hab : ca ≠ cb)
    (hst : s.bot_state = State.Draft)
    (hca : s.draft.captain_a = some ca)
    (hcb : s.draft.captain_b = some cb)
    (hta : s.draft.team_a = xa)
    (htb : s.draft.team_b = xb)
    (hcur : s.draft.current_picker = some cb)
    (hq : t ∈ s.user_queue)
    (hna : t ∉ xa)
    (hnb : t ∉ xb)
    (hlen : xa.length = 5 ∧ (xb ++ [t]).length = 5) :
    (handle_pick cb t s).1 =
      { s with draft := { s.draft with team_b := xb ++ [t],
                                       current_picker := some ca },
               bot_state := State.SidePick } := by
  obtain ⟨bs, q, rq, ⟨oca, ocb, ta, tb, cur, side⟩, cache, msgs, mp⟩ := s
  simp only at hst hca hcb hta htb hcur hq
  subst hst hca hcb hta htb hcur
  have hlen3 : ta.length = 5 ∧ tb.length = 4 := by
    refine ⟨hlen.1, ?_⟩
    have h2 := hlen.2
    simp only [List.length_append, List.length_singleton] at h2
    omega
  simp [handle_pick, hq, hna, hnb, hlen3, hab, Ne.symm hab]

/-- Freshness of each pick target makes the finished teams disjoint. -/
theorem teams_disjoint_of_fresh (ca cb t1 t2 t3 t4 t5 t6 t7 t8 : Nat)
    (hab : ca ≠ cb)
    (h1a : t1 ∉ [ca]) (h1b : t1 ∉ [cb])
    (h2a : t2 ∉ [ca, t1]) (h2b : t2 ∉ [cb])
    (h3a : t3 ∉ [ca, t1]) (h3b : t3 ∉ [cb, t2])
    (h4a : t4 ∉ [ca, t1, t3]) (h4b : t4 ∉ [cb, t2])
    (h5a : t5 ∉ [ca, t1, t3]) (h5b : t5 ∉ [cb, t2, t4])
    (h6a : t6 ∉ [ca, t1, t3, t5]) (h6b : t6 ∉ [cb, t2, t4])
    (h7a : t7 ∉ [ca, t1, t3, t5]) (h7b : t7 ∉ [cb, t2, t4, t6])
    (h8a : t8 ∉ [ca, t1, t3, t5, t7]) (h8b : t8 ∉ [cb, t2, t4, t6]) :
    ∀ x ∈ [ca, t1, t3, t5, t7], x ∉ [cb, t2, t4, t6, t8] := by
  intro x hx
  simp only [List.mem_cons, List.mem_singleton, List.not_mem_nil, or_false,
    not_or] at h1a h1b h2a h2b h3a h3b h4a h4b h5a h5b h6a h6b h7a h7b h8a h8b hx ⊢
  rcases hx with rfl | rfl | rfl | rfl | rfl
  · exact ⟨hab, Ne.symm h2a.1, Ne.symm h4a.1, Ne.symm h6a.1, Ne.symm h8a.1⟩
  · exact ⟨h1b, Ne.symm h2a.2, Ne.symm h4a.2.1, Ne.symm h6a.2.1, Ne.symm h8a.2.1⟩
  · exact ⟨h3b.1, h3b.2, Ne.symm h4a.2.2, Ne.symm h6a.2.2.1, Ne.symm h8a.2.2.1⟩
  · exact ⟨h5b.1, h5b.2.1, h5b.2.2, Ne.symm h6a.2.2.2, Ne.symm h8a.2.2.2.1⟩
  · exact ⟨h7b.1, h7b.2.1, h7b.2.2.1, h7b.2.2.2, Ne.symm h8a.2.2.2.2⟩

/-- Claim C9: from the post-coin-flip seeded state
(`team_a = [captain A]`, `team_b = [captain B]`, captain A to pick), every
sequence of 8 valid picks strictly alternates between the two captains
starting with captain A, each pick adds its target to the acting captain's
own team, and the result is two teams of exactly five with empty
intersection (and the phase has moved to `SidePick`). -/
theorem draft_eight_picks_alternate_and_fill
    (s : ScrimState) (ca cb a1 t1 a2 t2 a3 t3 a4 t4 a5 t5 a6 t6 a7 t7 a8 t8 : Nat)
    (hseed : seeded s ca cb)
    (hv : ValidPicks s
      [(a1, t1), (a2, t2), (a3, t3), (a4, t4), (a5, t5), (a6, t6), (a7, t7), (a8, t8)]) :
    a1 = ca ∧ a2 = cb ∧ a3 = ca ∧ a4 = cb ∧ a5 = ca ∧ a6 = cb ∧ a7 = ca ∧ a8 = cb ∧
    (pick_run [(a1, t1), (a2, t2), (a3, t3), (a4, t4), (a5, t5), (a6, t6), (a7, t7), (a8, t8)]
        s).draft.team_a = [ca, t1, t3, t5, t7] ∧
    (pick_run [(a1, t1), (a2, t2), (a3, t3), (a4, t4), (a5, t5), (a6, t6), (a7, t7), (a8, t8)]
        s).draft.team_b = [cb, t2, t4, t6, t8] ∧
    (pick_run [(a1, t1), (a2, t2), (a3, t3), (a4, t4), (a5, t5), (a6, t6), (a7, t7), (a8, t8)]
        s).draft.team_a.length = 5 ∧
    (pick_run [(a1, t1), (a2, t2), (a3, t3), (a4, t4), (a5, t5), (a6, t6), (a7, t7), (a8, t8)]
        s).draft.team_b.length = 5 ∧
    (∀ x ∈ (pick_run [(a1, t1), (a2, t2), (a3, t3), (a4, t4), (a5, t5), (a6, t6), (a7, t7), (a8, t8)]
        s).draft.team_a,
      x ∉ (pick_run [(a1, t1), (a2, t2), (a3, t3), (a4, t4), (a5, t5), (a6, t6), (a7, t7), (a8, t8)]
        s).draft.team_b) ∧
    (pick_run [(a1, t1), (a2, t2), (a3, t3), (a4, t4), (a5, t5), (a6, t6), (a7, t7), (a8, t8)]
        s).bot_state = State.SidePick := by
  obtain ⟨hst, hca, hcb, hab, hta0, htb0, hcur⟩ := hseed
  -- pick 1 (captain A picks t1)
  rcases hv with _ | ⟨_, _, _, _, h1, hv⟩
  obtain ⟨-, h1q, h1cur, -, h1na, h1nb⟩ := h1
  rw [hcur] at h1cur
  have ha1 : a1 = ca := (Option.some.inj h1cur).symm
  rw [ha1] at hv
  have h1na' : t1 ∉ [ca] := by rw [hta0] at h1na; exact h1na
  have h1nb' : t1 ∉ [cb] := by rw [htb0] at h1nb; exact h1nb
  have e1 : (handle_pick ca t1
      s).1 =
      { s with draft := { s.draft with team_a := [ca, t1], current_picker := some cb } } :=
    pick_step_a s
      ca cb t1 [ca] [cb] hst hca hcb hta0 htb0 hcur h1q h1na' h1nb'
      (by simp)
  rw [e1] at hv
  -- pick 2 (captain B picks t2)
  rcases hv with _ | ⟨_, _, _, _, h2, hv⟩
  obtain ⟨-, h2q, h2cur, -, h2na, h2nb⟩ := h2
  have ha2 : a2 = cb := by
    have h2' : some cb = some a2 := h2cur
    exact (Option.some.inj h2').symm
  rw [ha2] at hv
  have h2na' : t2 ∉ [ca, t1] := h2na
  have h2nb' : t2 ∉ [cb] := by
    have h0 : t2 ∉ s.draft.team_b := h2nb
    rw [htb0] at h0
    exact h0
  have e2 : (handle_pick cb t2
      { s with draft := { s.draft with team_a := [ca, t1], current_picker := some cb } }).1 =
      { s with draft := { s.draft with team_a := [ca, t1], team_b := [cb, t2], current_picker := some ca } } :=
    pick_step_b { s with draft := { s.draft with team_a := [ca, t1], current_picker := some cb } }
      ca cb t2 [ca, t1] [cb] hab hst hca hcb rfl htb0 rfl h2q h2na' h2nb'
      (by simp)
  rw [e2] at hv
  -- pick 3 (captain A picks t3)
  rcases hv with _ | ⟨_, _, _, _, h3, hv⟩
  obtain ⟨-, h3q, h3cur, -, h3na, h3nb⟩ := h3
  have ha3 : a3 = ca := by
    have h3' : some ca = some a3 := h3cur
    exact (Option.some.inj h3').symm
  rw [ha3] at hv
  have h3na' : t3 ∉ [ca, t1] := h3na
  have h3nb' : t3 ∉ [cb, t2] := h3nb
  have e3 : (handle_pick ca t3
      { s with draft := { s.draft with team_a := [ca, t1], team_b := [cb, t2], current_picker := some ca } }).1 =
      { s with draft := { s.draft with team_a := [ca, t1, t3], team_b := [cb, t2], current_picker := some cb } } :=
    pick_step_a { s with draft := { s.draft with team_a := [ca, t1], team_b := [cb, t2], current_picker := some ca } }
      ca cb t3 [ca, t1] [cb, t2] hst hca hcb rfl rfl rfl h3q h3na' h3nb'
      (by simp)
  rw [e3] at hv
  -- pick 4 (captain B picks t4)
  rcases hv with _ | ⟨_, _, _, _, h4, hv⟩
  obtain ⟨-, h4q, h4cur, -, h4na, h4nb⟩ := h4
  have ha4 : a4 = cb := by
    have h4' : some cb = some a4 := h4cur
    exact (Option.some.inj h4').symm
  rw [ha4] at hv
  have h4na' : t4 ∉ [ca, t1, t3] := h4na
  have h4nb' : t4 ∉ [cb, t2] := h4nb
  have e4 : (handle_pick cb t4
      { s with draft := { s.draft with team_a := [ca, t1, t3], team_b := [cb, t2], current_picker := some cb } }).1 =
      { s with draft := { s.draft with team_a := [ca, t1, t3], team_b := [cb, t2, t4], current_picker := some ca } } :=
    pick_step_b { s with draft := { s.draft with team_a := [ca, t1, t3], team_b := [cb, t2], current_picker := some cb } }
      ca cb t4 [ca, t1, t3] [cb, t2] hab hst hca hcb rfl rfl rfl h4q h4na' h4nb'
      (by simp)
  rw [e4] at hv
  -- pick 5 (captain A picks t5)
  rcases hv with _ | ⟨_, _, _, _, h5, hv⟩
  obtain ⟨-, h5q, h5cur, -, h5na, h5nb⟩ := h5
  have ha5 : a5 = ca := by
    have h5' : some ca = some a5 := h5cur
    exact (Option.some.inj h5').symm
  rw [ha5] at hv
  have h5na' : t5 ∉ [ca, t1, t3] := h5na
  have h5nb' : t5 ∉ [cb, t2, t4] := h5nb
  have e5 : (handle_pick ca t5
      { s with draft := { s.draft with team_a := [ca, t1, t3], team_b := [cb, t2, t4], current_picker := some ca } }).1 =
      { s with draft := { s.draft with team_a := [ca, t1, t3, t5], team_b := [cb, t2, t4], current_picker := some cb } } :=
    pick_step_a { s with draft := { s.draft with team_a := [ca, t1, t3], team_b := [cb, t2, t4], current_picker := some ca } }
      ca cb t5 [ca, t1, t3] [cb, t2, t4] hst hca hcb rfl rfl rfl h5q h5na' h5nb'
      (by simp)
  rw [e5] at hv
  -- pick 6 (captain B picks t6)
  rcases hv with _ | ⟨_, _, _, _, h6, hv⟩
  obtain ⟨-, h6q, h6cur, -, h6na, h6nb⟩ := h6
  have ha6 : a6 = cb := by
    have h6' : some cb = some a6 := h6cur
    exact (Option.some.inj h6').symm
  rw [ha6] at hv
  have h6na' : t6 ∉ [ca, t1, t3, t5] := h6na
  have h6nb' : t6 ∉ [cb, t2, t4] := h6nb
  have e6 : (handle_pick cb t6
      { s with draft := { s.draft with team_a := [ca, t1, t3, t5], team_b := [cb, t2, t4], current_picker := some cb } }).1 =
      { s with draft := { s.draft with team_a := [ca, t1, t3, t5], team_b := [cb, t2, t4, t6], current_picker := some ca } } :=
    pick_step_b { s with draft := { s.draft with team_a := [ca, t1, t3, t5], team_b := [cb, t2, t4], current_picker := some cb } }
      ca cb t6 [ca, t1, t3, t5] [cb, t2, t4] hab hst hca hcb rfl rfl rfl h6q h6na' h6nb'
      (by simp)
  rw [e6] at hv
  -- pick 7 (captain A picks t7)
  rcases hv with _ | ⟨_, _, _, _, h7, hv⟩
  obtain ⟨-, h7q, h7cur, -, h7na, h7nb⟩ := h7
  have ha7 : a7 = ca := by
    have h7' : some ca = some a7 := h7cur
    exact (Option.some.inj h7').symm
  rw [ha7] at hv
  have h7na' : t7 ∉ [ca, t1, t3, t5] := h7na
  have h7nb' : t7 ∉ [cb, t2, t4, t6] := h7nb
  have e7 : (handle_pick ca t7
      { s with draft := { s.draft with team_a := [ca, t1, t3, t5], team_b := [cb, t2, t4, t6], current_picker := some ca } }).1 =
      { s with draft := { s.draft with team_a := [ca, t1, t3, t5, t7], team_b := [cb, t2, t4, t6], current_picker := some cb } } :=
    pick_step_a { s with draft := { s.draft with team_a := [ca, t1, t3, t5], team_b := [cb, t2, t4, t6], current_picker := some ca } }
      ca cb t7 [ca, t1, t3, t5] [cb, t2, t4, t6] hst hca hcb rfl rfl rfl h7q h7na' h7nb'
      (by simp)
  rw [e7] at hv
  -- pick 8 (captain B picks t8)
  rcases hv with _ | ⟨_, _, _, _, h8, hv⟩
  obtain ⟨-, h8q, h8cur, -, h8na, h8nb⟩ := h8
  have ha8 : a8 = cb := by
    have h8' : some cb = some a8 := h8cur
    exact (Option.some.inj h8').symm
  rw [ha8] at hv
  have h8na' : t8 ∉ [ca, t1, t3, t5, t7] := h8na
  have h8nb' : t8 ∉ [cb, t2, t4, t6] := h8nb
  have e8 : (handle_pick cb t8
      { s with draft := { s.draft with team_a := [ca, t1, t3, t5, t7], team_b := [cb, t2, t4, t6], current_picker := some cb } }).1 =
      { s with draft := { s.draft with team_a := [ca, t1, t3, t5, t7], team_b := [cb, t2, t4, t6, t8], current_picker := some ca },
               bot_state := State.SidePick } :=
    pick_step_b_last { s with draft := { s.draft with team_a := [ca, t1, t3, t5, t7], team_b := [cb, t2, t4, t6], current_picker := some cb } }
      ca cb t8 [ca, t1, t3, t5, t7] [cb, t2, t4, t6] hab hst hca hcb rfl rfl rfl h8q h8na' h8nb'
      (by simp)
  have efinal : pick_run
      [(ca, t1), (cb, t2), (ca, t3), (cb, t4), (ca, t5), (cb, t6), (ca, t7), (cb, t8)] s =
      { s with draft := { s.draft with team_a := [ca, t1, t3, t5, t7], team_b := [cb, t2, t4, t6, t8], current_picker := some ca },
               bot_state := State.SidePick } := by
    show (handle_pick cb t8 ((handle_pick ca t7 ((handle_pick cb t6 ((handle_pick ca t5
      ((handle_pick cb t4 ((handle_pick ca t3 ((handle_pick cb t2
      ((handle_pick ca t1 s).1)).1)).1)).1)).1)).1)).1)).1 = _
    rw [e1, e2, e3, e4, e5, e6, e7, e8]
  rw [ha1, ha2, ha3, ha4, ha5, ha6, ha7, ha8, efinal]
  refine ⟨rfl, rfl, rfl, rfl, rfl, rfl, rfl, rfl, rfl, rfl, rfl, rfl, ?_, rfl⟩
  exact teams_disjoint_of_fresh ca cb t1 t2 t3 t4 t5 t6 t7 t8 hab h1na' h1nb' h2na' h2nb' h3na' h3nb' h4na' h4nb' h5na' h5nb' h6na' h6nb' h7na' h7nb' h8na' h8nb'

/-- Witness for the C9 theorem: captains 1 and 2 draft players 3–10 in the
concrete seeded state. -/
theorem draft_eight_picks_alternate_and_fill_witness :
    seeded s_seeded 1 2 ∧ ValidPicks s_seeded picks8 ∧
    ((1 : Nat) = 1 ∧ (2 : Nat) = 2 ∧ (1 : Nat) = 1 ∧ (2 : Nat) = 2 ∧ (1 : Nat) = 1 ∧
     (2 : Nat) = 2 ∧ (1 : Nat) = 1 ∧ (2 : Nat) = 2 ∧
     (pick_run picks8 s_seeded).draft.team_a = [1, 3, 5, 7, 9] ∧
     (pick_run picks8 s_seeded).draft.team_b = [2, 4, 6, 8, 10] ∧
     (pick_run picks8 s_seeded).draft.team_a.length = 5 ∧
     (pick_run picks8 s_seeded).draft.team_b.length = 5 ∧
     (∀ x ∈ (pick_run picks8 s_seeded).draft.team_a,
       x ∉ (pick_run picks8 s_seeded).draft.team_b) ∧
     (pick_run picks8 s_seeded).bot_state = State.SidePick) := by
  have hseed : seeded s_seeded 1 2 := by decide
  have hv : ValidPicks s_seeded picks8 := by
    refine ValidPicks.cons _ _ _ _ (by decide) ?_
    refine ValidPicks.cons _ _ _ _ (by decide) ?_
    refine ValidPicks.cons _ _ _ _ (by decide) ?_
    refine ValidPicks.cons _ _ _ _ (by decide) ?_
    refine ValidPicks.cons _ _ _ _ (by decide) ?_
    refine ValidPicks.cons _ _ _ _ (by decide) ?_
    refine ValidPicks.cons _ _ _ _ (by decide) ?_
    refine ValidPicks.cons _ _ _ _ (by decide) ?_
    exact ValidPicks.nil _
  exact ⟨hseed, hv,
    draft_eight_picks_alternate_and_fill s_seeded 1 2 1 3 2 4 1 5 2 6 1 7 2 8 1 9 2 10
      hseed hv⟩

/-- A cache lookup that succeeds still succeeds after a new insertion. -/
theorem lookup_isSome_cons (k : Nat) (v : String) (l : List (Nat × String)) (u : Nat)
    (h : (l.lookup u).isSome = true) : (((k, v) :: l).lookup u).isSome = true := by
  simp only [List.lookup]
  cases hu : u == k
  · simpa using h
  · simp

/-- `handle_join` preserves the identity-cache invariant: it only admits
players whose cache lookup succeeds. -/
theorem steam_inv_join (a : Nat) (n : Option String) (s : ScrimState)
    (h : steam_inv s) : steam_inv (handle_join a n s) := by
  obtain ⟨hq, hta, htb, hca, hcb⟩ := h
  unfold handle_join
  split_ifs with h1 h2 h3
  · exact ⟨hq, hta, htb, hca, hcb⟩
  · exact ⟨hq, hta, htb, hca, hcb⟩
  · exact ⟨hq, hta, htb, hca, hcb⟩
  · have h1' : s.steam_id_cache.lookup a ≠ none := by
      simpa [Option.isNone_iff_eq_none] using h1
    have ha : (s.steam_id_cache.lookup a).isSome = true :=
      Option.ne_none_iff_isSome.mp h1'
    have hq2 : ∀ u ∈ s.user_queue ++ [a], (s.steam_id_cache.lookup u).isSome = true := by
      intro u hu
      rcases List.mem_append.mp hu with hu | hu
      · exact hq u hu
      · rw [List.mem_singleton.mp hu]
        exact ha
    cases n
    · exact ⟨hq2, hta, htb, hca, hcb⟩
    · exact ⟨hq2, hta, htb, hca, hcb⟩

/-- `handle_leave` preserves the identity-cache invariant. -/
theorem steam_inv_leave (a : Nat) (s : ScrimState) (h : steam_inv s) :
    steam_inv (handle_leave a s) := by
  obtain ⟨hq, hta, htb, hca, hcb⟩ := h
  unfold handle_leave
  split_ifs with h1 h2
  all_goals first
    | exact ⟨hq, hta, htb, hca, hcb⟩
    | exact ⟨fun u hu => hq u (List.mem_of_mem_erase hu), hta, htb, hca, hcb⟩

/-- `handle_clear` preserves the identity-cache invariant. -/
theorem steam_inv_clear (s : ScrimState) (h : steam_inv s) :
    steam_inv (handle_clear s) := by
  obtain ⟨hq, hta, htb, hca, hcb⟩ := h
  exact ⟨fun u hu => absurd hu (List.not_mem_nil u), hta, htb, hca, hcb⟩

/-- `handle_kick` preserves the identity-cache invariant. -/
theorem steam_inv_kick (t : Nat) (s : ScrimState) (h : steam_inv s) :
    steam_inv (handle_kick t s) := by
  obtain ⟨hq, hta, htb, hca, hcb⟩ := h
  unfold handle_kick
  split_ifs with h1 h2
  all_goals first
    | exact ⟨hq, hta, htb, hca, hcb⟩
    | exact ⟨fun u hu => hq u (List.mem_of_mem_erase hu), hta, htb, hca, hcb⟩

/-- Re-joining a list of players one by one preserves the invariant. -/
theorem steam_inv_fold_join (ms : List (Nat × Option String)) :
    ∀ s : ScrimState, steam_inv s →
      steam_inv (ms.foldl (fun st m => handle_join m.1 m.2 st) s) := by
  induction ms with
  | nil => intro s h; simpa using h
  | cons m ms ih =>
    intro s h
    simpa using ih _ (steam_inv_join m.1 m.2 s h)

/-- `handle_recover_queue` preserves the identity-cache invariant. -/
theorem steam_inv_recover (ms : List (Nat × Option String)) (s : ScrimState)
    (h : steam_inv s) : steam_inv (handle_recover_queue ms s) := by
  obtain ⟨hq, hta, htb, hca, hcb⟩ := h
  unfold handle_recover_queue
  exact steam_inv_fold_join ms _
    ⟨fun u hu => absurd hu (List.not_mem_nil u), hta, htb, hca, hcb⟩

/-- `handle_steam_id` only grows the cache, so the invariant survives. -/
theorem steam_inv_steamid (a : Nat) (arg : Option String) (s : ScrimState)
    (h : steam_inv s) : steam_inv (handle_steam_id a arg s) := by
  obtain ⟨hq, hta, htb, hca, hcb⟩ := h
  unfold handle_steam_id
  cases arg with
  | none => exact ⟨hq, hta, htb, hca, hcb⟩
  | some sid =>
    by_cases hval : is_valid_steam_id sid = true
    · simp only [hval, Bool.not_true, Bool.false_eq_true, if_false]
      refine ⟨?_, ?_, ?_, ?_, ?_⟩
      · intro u hu; exact lookup_isSome_cons _ _ _ _ (hq u hu)
      · intro u hu; exact lookup_isSome_cons _ _ _ _ (hta u hu)
      · intro u hu; exact lookup_isSome_cons _ _ _ _ (htb u hu)
      · intro c hc; exact lookup_isSome_cons _ _ _ _ (hca c hc)
      · intro c hc; exact lookup_isSome_cons _ _ _ _ (hcb c hc)
    · have hv2 : is_valid_steam_id sid = false := by
        simpa using hval
      simp only [hv2, Bool.not_false, if_true]
      exact ⟨hq, hta, htb, hca, hcb⟩

/-- `handle_add_map` does not touch queue, draft or cache. -/
theorem steam_inv_addmap (m : String) (s : ScrimState) (h : steam_inv s) :
    steam_inv (handle_add_map m s) := by
  obtain ⟨hq, hta, htb, hca, hcb⟩ := h
  unfold handle_add_map
  split_ifs <;> exact ⟨hq, hta, htb, hca, hcb⟩

/-- `handle_remove_map` does not touch queue, draft or cache. -/
theorem steam_inv_removemap (m : String) (s : ScrimState) (h : steam_inv s) :
    steam_inv (handle_remove_map m s) := by
  obtain ⟨hq, hta, htb, hca, hcb⟩ := h
  unfold handle_remove_map
  split_ifs <;> exact ⟨hq, hta, htb, hca, hcb⟩

/-- `handle_start` preserves the invariant (it only clears draft seats). -/
theorem steam_inv_start (b : Bool) (s : ScrimState) (h : steam_inv s) :
    steam_inv (handle_start_model b s) := by
  obtain ⟨hq, hta, htb, hca, hcb⟩ := h
  unfold handle_start_model handle_start_set_map
  split_ifs
  · exact ⟨hq, hta, htb, hca, hcb⟩
  · exact ⟨hq, hta, htb, hca, hcb⟩
  · exact ⟨hq, fun u hu => absurd hu (List.not_mem_nil u),
      fun u hu => absurd hu (List.not_mem_nil u),
      fun c hc => Option.noConfusion hc, fun c hc => Option.noConfusion hc⟩
  · exact ⟨hq, hta, htb, hca, hcb⟩

/-- `handle_captain` seats only queued players (or previously seated
captains), so the invariant survives. -/
theorem steam_inv_captain (a : Nat) (coin : Bool) (s : ScrimState)
    (h : steam_inv s) : steam_inv (handle_captain a coin s) := by
  obtain ⟨hq, hta, htb, hca, hcb⟩ := h
  obtain ⟨bs, q, rq, ⟨oca, ocb, ta, tb, cur, sd⟩, cache, msgs, mp⟩ := s
  simp only at hq hta htb hca hcb
  have push : ∀ (xs : List Nat) (w : Nat),
      (∀ u ∈ xs, (cache.lookup u).isSome = true) →
      (cache.lookup w).isSome = true →
      ∀ u ∈ xs ++ [w], (cache.lookup u).isSome = true := by
    intro xs w hxs hw u hu
    rcases List.mem_append.mp hu with hu | hu
    · exact hxs u hu
    · rw [List.mem_singleton.mp hu]
      exact hw
  have single : ∀ w : Nat, (cache.lookup w).isSome = true →
      opt_in_cache cache (some w) := by
    intro w hw c hc
    cases hc
    exact hw
  by_cases hbs : bs = State.CaptainPick
  case neg =>
    simp [handle_captain, hbs]
    exact ⟨hq, hta, htb, hca, hcb⟩
  case pos =>
    subst hbs
    by_cases hqm : a ∈ q
    case neg =>
      simp [handle_captain, hqm]
      exact ⟨hq, hta, htb, hca, hcb⟩
    case pos =>
      have ha : (cache.lookup a).isSome = true := hq a hqm
      cases oca with
      | none =>
        cases ocb with
        | none =>
          simp [handle_captain, hqm]
          exact ⟨hq, hta, htb, single a ha, fun c hc => Option.noConfusion hc⟩
        | some cb0 =>
          have hb : (cache.lookup cb0).isSome = true := hcb cb0 rfl
          cases coin with
          | true =>
            simp [handle_captain, hqm]
            exact ⟨hq, push _ _ hta hb, push _ _ htb ha, single cb0 hb, single a ha⟩
          | false =>
            simp [handle_captain, hqm]
            exact ⟨hq, push _ _ hta ha, push _ _ htb hb, single a ha, single cb0 hb⟩
      | some ca0 =>
        have hA : (cache.lookup ca0).isSome = true := hca ca0 rfl
        by_cases hdup : ca0 = a
        · subst hdup
          simp [handle_captain, hqm]
          exact ⟨hq, hta, htb, hca, hcb⟩
        · cases coin with
          | true =>
            simp [handle_captain, hqm, hdup]
            exact ⟨hq, push _ _ hta ha, push _ _ htb hA, single a ha, single ca0 hA⟩
          | false =>
            simp [handle_captain, hqm, hdup]
            exact ⟨hq, push _ _ hta hA, push _ _ htb ha, single ca0 hA, single a ha⟩

/-- `handle_pick` adds only queued players to a team. -/
theorem steam_inv_pick (a t : Nat) (s : ScrimState) (h : steam_inv s) :
    steam_inv (handle_pick a t s).1 := by
  obtain ⟨hq, hta, htb, hca, hcb⟩ := h
  obtain ⟨bs, q, rq, ⟨oca, ocb, ta, tb, cur, sd⟩, cache, msgs, mp⟩ := s
  simp only at hq hta htb hca hcb
  have push : ∀ (xs : List Nat) (w : Nat),
      (∀ u ∈ xs, (cache.lookup u).isSome = true) →
      (cache.lookup w).isSome = true →
      ∀ u ∈ xs ++ [w], (cache.lookup u).isSome = true := by
    intro xs w hxs hw u hu
    rcases List.mem_append.mp hu with hu | hu
    · exact hxs u hu
    · rw [List.mem_singleton.mp hu]
      exact hw
  by_cases hbs : bs = State.Draft
  case neg =>
    simp [handle_pick, hbs]
    exact ⟨hq, hta, htb, hca, hcb⟩
  case pos =>
    subst hbs
    by_cases hqm : t ∈ q
    case neg =>
      simp [handle_pick, hqm]
      exact ⟨hq, hta, htb, hca, hcb⟩
    case pos =>
      have ht : (cache.lookup t).isSome = true := hq t hqm
      cases cur with
      | none =>
        simp [handle_pick, hqm]
        exact ⟨hq, hta, htb, hca, hcb⟩
      | some current =>
        cases oca with
        | none =>
          simp [handle_pick, hqm]
          exact ⟨hq, hta, htb, hca, hcb⟩
        | some ca0 =>
          cases ocb with
          | none =>
            simp [handle_pick, hqm]
            exact ⟨hq, hta, htb, hca, hcb⟩
          | some cb0 =>
            by_cases hcap : a ≠ ca0 ∧ a ≠ cb0
            · simp [handle_pick, hqm, hcap]
              exact ⟨hq, hta, htb, hca, hcb⟩
            · by_cases hturn : current ≠ a
              · simp [handle_pick, hqm, hcap, hturn]
                exact ⟨hq, hta, htb, hca, hcb⟩
              · by_cases hteam : t ∈ ta ∨ t ∈ tb
                · simp [handle_pick, hqm, hcap, hturn, hteam]
                  exact ⟨hq, hta, htb, hca, hcb⟩
                · by_cases hwho : ca0 = current
                  · subst hwho
                    simp [handle_pick, hqm, hcap, hturn, hteam]
                    split_ifs with hlen
                    · exact ⟨hq, push _ _ hta ht, htb, hca, hcb⟩
                    · exact ⟨hq, push _ _ hta ht, htb, hca, hcb⟩
                  · simp [handle_pick, hqm, hcap, hturn, hteam, hwho]
                    split_ifs with hlen
                    · exact ⟨hq, hta, push _ _ htb ht, hca, hcb⟩
                    · exact ⟨hq, hta, push _ _ htb ht, hca, hcb⟩

/-- The side pick records a string only; the invariant survives. -/
theorem steam_inv_side (side : String) (a : Nat) (s : ScrimState)
    (h : steam_inv s) : steam_inv (handle_side_option side a s).1 := by
  obtain ⟨hq, hta, htb, hca, hcb⟩ := h
  obtain ⟨bs, q, rq, ⟨oca, ocb, ta, tb, cur, sd⟩, cache, msgs, mp⟩ := s
  simp only at hq hta htb hca hcb
  by_cases hbs : bs = State.SidePick
  case neg =>
    simp [handle_side_option, hbs]
    exact ⟨hq, hta, htb, hca, hcb⟩
  case pos =>
    subst hbs
    cases ocb with
    | none =>
      simp [handle_side_option]
      exact ⟨hq, hta, htb, hca, hcb⟩
    | some cb0 =>
      by_cases hwho : a ≠ cb0
      · simp [handle_side_option, hwho]
        exact ⟨hq, hta, htb, hca, hcb⟩
      · simp [handle_side_option, hwho]
        exact ⟨hq, hta, htb, hca, hcb⟩

/-- `handle_ready` either appends a ready player or resets the session;
the invariant survives both (and the launch-path panic state too). -/
theorem steam_inv_ready (a : Nat) (b : Bool) (s : ScrimState)
    (h : steam_inv s) : steam_inv (handle_ready a b s).1 := by
  obtain ⟨hq, hta, htb, hca, hcb⟩ := h
  obtain ⟨bs, q, rq, ⟨oca, ocb, ta, tb, cur, sd⟩, cache, msgs, mp⟩ := s
  simp only at hq hta htb hca hcb
  by_cases hbs : bs = State.Ready
  case neg =>
    simp [handle_ready, hbs]
    exact ⟨hq, hta, htb, hca, hcb⟩
  case pos =>
    subst hbs
    by_cases hqm : a ∈ q
    case neg =>
      simp [handle_ready, hqm]
      exact ⟨hq, hta, htb, hca, hcb⟩
    case pos =>
      by_cases hrd : a ∈ rq
      · simp [handle_ready, hqm, hrd]
        exact ⟨hq, hta, htb, hca, hcb⟩
      · simp [handle_ready, hqm, hrd]
        split_ifs with hlen
        · split
          · split_ifs with hemp
            · exact ⟨hq, hta, htb, hca, hcb⟩
            · exact ⟨fun u hu => absurd hu (List.not_mem_nil u),
                fun u hu => absurd hu (List.not_mem_nil u),
                fun u hu => absurd hu (List.not_mem_nil u),
                fun c hc => Option.noConfusion hc, fun c hc => Option.noConfusion hc⟩
          · exact ⟨hq, hta, htb, hca, hcb⟩
        · exact ⟨hq, hta, htb, hca, hcb⟩

/-- `handle_unready` only touches the ready queue. -/
theorem steam_inv_unready (a : Nat) (s : ScrimState) (h : steam_inv s) :
    steam_inv (step (Cmd.unready a) s) := by
  obtain ⟨hq, hta, htb, hca, hcb⟩ := h
  show steam_inv (match handle_unready a s with | some s2 => s2 | none => s)
  cases hu : handle_unready a s with
  | none => exact ⟨hq, hta, htb, hca, hcb⟩
  | some s2 =>
    unfold handle_unready at hu
    split_ifs at hu with h1 h2
    all_goals try (injection hu with hu2; subst hu2; exact ⟨hq, hta, htb, hca, hcb⟩)
    split at hu
    · exact Option.noConfusion hu
    · injection hu with hu2
      subst hu2
      exact ⟨hq, hta, htb, hca, hcb⟩

/-- `handle_cancel` clears draft seats; the invariant survives. -/
theorem steam_inv_cancel (s : ScrimState) (h : steam_inv s) :
    steam_inv (handle_cancel s) := by
  obtain ⟨hq, hta, htb, hca, hcb⟩ := h
  unfold handle_cancel
  split_ifs with h1
  · exact ⟨hq, hta, htb, hca, hcb⟩
  · exact ⟨hq, fun u hu => absurd hu (List.not_mem_nil u),
      fun u hu => absurd hu (List.not_mem_nil u),
      fun c hc => Option.noConfusion hc, fun c hc => Option.noConfusion hc⟩

/-- Every command step preserves the identity-cache invariant. -/
theorem steam_inv_step (c : Cmd) (s : ScrimState) (h : steam_inv s) :
    steam_inv (step c s) := by
  cases c with
  | join a n => exact steam_inv_join a n s h
  | leave a => exact steam_inv_leave a s h
  | clear => exact steam_inv_clear s h
  | recover ms => exact steam_inv_recover ms s h
  | steamid a arg => exact steam_inv_steamid a arg s h
  | kick t => exact steam_inv_kick t s h
  | addmap m => exact steam_inv_addmap m s h
  | removemap m => exact steam_inv_removemap m s h
  | start b => exact steam_inv_start b s h
  | captain a coin => exact steam_inv_captain a coin s h
  | pick a t => exact steam_inv_pick a t s h
  | ct_side a => exact steam_inv_side "ct" a s h
  | t_side a => exact steam_inv_side "t" a s h
  | ready a b => exact steam_inv_ready a b s h
  | unready a => exact steam_inv_unready a s h
  | cancel => exact steam_inv_cancel s h

/-- The identity-cache invariant holds in every reachable state. -/
theorem reachable_steam_inv (s : ScrimState) (h : Reachable s) : steam_inv s := by
  induction h with
  | init s0 h0 =>
    obtain ⟨-, hq0, -, hca0, hcb0, hta0, htb0, -⟩ := h0
    refine ⟨?_, ?_, ?_, ?_, ?_⟩
    · intro u hu; rw [hq0] at hu; exact absurd hu (List.not_mem_nil u)
    · intro u hu; rw [hta0] at hu; exact absurd hu (List.not_mem_nil u)
    · intro u hu; rw [htb0] at hu; exact absurd hu (List.not_mem_nil u)
    · intro c hc; rw [hca0] at hc; exact Option.noConfusion hc
    · intro c hc; rw [hcb0] at hc; exact Option.noConfusion hc
  | next c s hs ih => exact steam_inv_step c s ih

/-- Pointwise-successful cache lookups make the whole roster lookup
succeed. -/
theorem lookup_ids_isSome (cache : List (Nat × String)) :
    ∀ team : List Nat, (∀ u ∈ team, (cache.lookup u).isSome = true) →
      (lookup_ids cache team).isSome = true := by
  intro team
  induction team with
  | nil => intro h; simp [lookup_ids]
  | cons x xs ih =>
    intro h
    obtain ⟨v, hv⟩ := Option.isSome_iff_exists.mp (h x (List.mem_cons_self x xs))
    have hxs := ih (fun u hu => h u (List.mem_cons_of_mem x hu))
    obtain ⟨ys, hys⟩ := Option.isSome_iff_exists.mp hxs
    simp [lookup_ids, hv, hys]

/-- Claim C10: `handle_join` rejects a player with no cached steam id
before any queue mutation; consequently every queued player — and every
drafted player — has a cache entry in every reachable state, so the
launch-path roster lookups never fail. -/
theorem queued_players_have_identity (s : ScrimState) (h : Reachable s) :
    (∀ (a : Nat) (n : Option String) (s2 : ScrimState),
      s2.steam_id_cache.lookup a = none → handle_join a n s2 = s2) ∧
    (∀ u ∈ s.user_queue, (s.steam_id_cache.lookup u).isSome = true) ∧
    (∀ u ∈ s.draft.team_a, (s.steam_id_cache.lookup u).isSome = true) ∧
    (∀ u ∈ s.draft.team_b, (s.steam_id_cache.lookup u).isSome = true) ∧
    (launch_lookups s.steam_id_cache s.draft.team_a).isSome = true ∧
    (launch_lookups s.steam_id_cache s.draft.team_b).isSome = true := by
  obtain ⟨hq, hta, htb, hca, hcb⟩ := reachable_steam_inv s h
  refine ⟨?_, hq, hta, htb, ?_, ?_⟩
  · intro a n s2 hnone
    unfold handle_join
    rw [if_pos (by simp [hnone])]
  · unfold launch_lookups
    obtain ⟨l, hl⟩ :=
      Option.isSome_iff_exists.mp (lookup_ids_isSome s.steam_id_cache s.draft.team_a hta)
    simp [hl]
  · unfold launch_lookups
    obtain ⟨l, hl⟩ :=
      Option.isSome_iff_exists.mp (lookup_ids_isSome s.steam_id_cache s.draft.team_b htb)
    simp [hl]

/-- Witness for the C10 theorem at a concrete startup state. -/
theorem queued_players_have_identity_witness :
    Reachable s_startup ∧
    ((∀ (a : Nat) (n : Option String) (s2 : ScrimState),
      s2.steam_id_cache.lookup a = none → handle_join a n s2 = s2) ∧
     (∀ u ∈ s_startup.user_queue, (s_startup.steam_id_cache.lookup u).isSome = true) ∧
     (∀ u ∈ s_startup.draft.team_a, (s_startup.steam_id_cache.lookup u).isSome = true) ∧
     (∀ u ∈ s_startup.draft.team_b, (s_startup.steam_id_cache.lookup u).isSome = true) ∧
     (launch_lookups s_startup.steam_id_cache s_startup.draft.team_a).isSome = true ∧
     (launch_lookups s_startup.steam_id_cache s_startup.draft.team_b).isSome = true) := by
  have h0 : Reachable s_startup := Reachable.init s_startup (by decide)
  exact ⟨h0, queued_players_have_identity s_startup h0⟩

/-- `handle_ready` frame: the result either empties the ready queue (the
launch reset), or leaves ready and user queues untouched, or appends the
queued author to the ready queue. -/
theorem handle_ready_frame (a : Nat) (b : Bool) (s : ScrimState) :
    (handle_ready a b s).1.ready_queue = [] ∨
    ((handle_ready a b s).1.ready_queue = s.ready_queue ∧
     (handle_ready a b s).1.user_queue = s.user_queue) ∨
    (a ∈ s.user_queue ∧
     (handle_ready a b s).1.ready_queue = s.ready_queue ++ [a] ∧
     (handle_ready a b s).1.user_queue = s.user_queue) := by
  obtain ⟨bs, q, rq, ⟨oca, ocb, ta, tb, cur, sd⟩, cache, msgs, mp⟩ := s
  by_cases hbs : bs = State.Ready
  case neg => simp [handle_ready, hbs]
  case pos =>
    subst hbs
    by_cases hqm : a ∈ q
    case neg => simp [handle_ready, hqm]
    case pos =>
      by_cases hrd : a ∈ rq
      · simp [handle_ready, hqm, hrd]
      · simp [handle_ready, hqm, hrd]
        split_ifs with hlen
        · split
          · split_ifs with hemp
            · simp [hqm]
            · simp [reset_session]
          · simp [hqm]
        · simp [hqm]

/-- Running a command list from a reachable state stays reachable. -/
theorem reachable_run (cs : List Cmd) :
    ∀ s : ScrimState, Reachable s → Reachable (run cs s) := by
  induction cs with
  | nil => intro s h; simpa [run] using h
  | cons c cs ih =>
    intro s h
    simpa [run, List.foldl] using ih (step c s) (Reachable.next c s h)

/-- `handle_join` never touches phase or ready queue. -/
theorem qpnr_join (a : Nat) (n : Option String) (s : ScrimState)
    (h : queue_phase_no_ready s) : queue_phase_no_ready (handle_join a n s) := by
  unfold handle_join
  split_ifs
  all_goals first
    | exact h
    | (cases n <;> exact h)

/-- `handle_leave` never touches phase or ready queue. -/
theorem qpnr_leave (a : Nat) (s : ScrimState)
    (h : queue_phase_no_ready s) : queue_phase_no_ready (handle_leave a s) := by
  unfold handle_leave
  split_ifs <;> exact h

/-- `handle_clear` never touches phase or ready queue. -/
theorem qpnr_clear (s : ScrimState)
    (h : queue_phase_no_ready s) : queue_phase_no_ready (handle_clear s) :=
  h

/-- `handle_kick` never touches phase or ready queue. -/
theorem qpnr_kick (t : Nat) (s : ScrimState)
    (h : queue_phase_no_ready s) : queue_phase_no_ready (handle_kick t s) := by
  unfold handle_kick
  split_ifs <;> exact h

/-- Folding joins never touches phase or ready queue. -/
theorem qpnr_fold_join (ms : List (Nat × Option String)) :
    ∀ s : ScrimState, queue_phase_no_ready s →
      queue_phase_no_ready (ms.foldl (fun st m => handle_join m.1 m.2 st) s) := by
  induction ms with
  | nil => intro s h; simpa using h
  | cons m ms ih =>
    intro s h
    simpa using ih _ (qpnr_join m.1 m.2 s h)

/-- `handle_recover_queue` never touches phase or ready queue. -/
theorem qpnr_recover (ms : List (Nat × Option String)) (s : ScrimState)
    (h : queue_phase_no_ready s) : queue_phase_no_ready (handle_recover_queue ms s) := by
  unfold handle_recover_queue
  exact qpnr_fold_join ms _ h

/-- `handle_steam_id` never touches phase or ready queue. -/
theorem qpnr_steamid (a : Nat) (arg : Option String) (s : ScrimState)
    (h : queue_phase_no_ready s) : queue_phase_no_ready (handle_steam_id a arg s) := by
  unfold handle_steam_id
  repeat' split
  all_goals exact h

/-- `handle_add_map` never touches phase or ready queue. -/
theorem qpnr_addmap (m : String) (s : ScrimState)
    (h : queue_phase_no_ready s) : queue_phase_no_ready (handle_add_map m s) := by
  unfold handle_add_map
  split_ifs <;> exact h

/-- `handle_remove_map` never touches phase or ready queue. -/
theorem qpnr_removemap (m : String) (s : ScrimState)
    (h : queue_phase_no_ready s) : queue_phase_no_ready (handle_remove_map m s) := by
  unfold handle_remove_map
  split_ifs <;> exact h

/-- `handle_start` frame: queue and ready queue untouched; the phase stays
or moves to `MapPick`/`CaptainPick`. -/
theorem handle_start_frame (b : Bool) (s : ScrimState) :
    (handle_start_model b s).ready_queue = s.ready_queue ∧
    (handle_start_model b s).user_queue = s.user_queue ∧
    ((handle_start_model b s).bot_state = s.bot_state ∨
     (handle_start_model b s).bot_state = State.MapPick ∨
     (handle_start_model b s).bot_state = State.CaptainPick) := by
  unfold handle_start_model handle_start_set_map
  split_ifs <;> simp

/-- `handle_captain` frame: queue and ready queue untouched; the phase
stays or moves to `Draft`. -/
theorem handle_captain_frame (a : Nat) (coin : Bool) (s : ScrimState) :
    (handle_captain a coin s).ready_queue = s.ready_queue ∧
    (handle_captain a coin s).user_queue = s.user_queue ∧
    ((handle_captain a coin s).bot_state = s.bot_state ∨
     (handle_captain a coin s).bot_state = State.Draft) := by
  obtain ⟨bs, q, rq, ⟨oca, ocb, ta, tb, cur, sd⟩, cache, msgs, mp⟩ := s
  by_cases hbs : bs = State.CaptainPick
  case neg => simp [handle_captain, hbs]
  case pos =>
    subst hbs
    by_cases hqm : a ∈ q
    case neg => simp [handle_captain, hqm]
    case pos =>
      cases oca with
      | none =>
        cases ocb with
        | none => simp [handle_captain, hqm]
        | some cb0 => cases coin <;> simp [handle_captain, hqm]
      | some ca0 =>
        by_cases hdup : ca0 = a
        · subst hdup
          simp [handle_captain, hqm]
        · cases coin <;> simp [handle_captain, hqm, hdup]

/-- `handle_pick` frame: queue and ready queue untouched; the phase stays
or moves to `SidePick`. -/
theorem handle_pick_frame (a t : Nat) (s : ScrimState) :
    (handle_pick a t s).1.ready_queue = s.ready_queue ∧
    (handle_pick a t s).1.user_queue = s.user_queue ∧
    ((handle_pick a t s).1.bot_state = s.bot_state ∨
     (handle_pick a t s).1.bot_state = State.SidePick) := by
  obtain ⟨bs, q, rq, ⟨oca, ocb, ta, tb, cur, sd⟩, cache, msgs, mp⟩ := s
  by_cases hbs : bs = State.Draft
  case neg => simp [handle_pick, hbs]
  case pos =>
    subst hbs
    by_cases hqm : t ∈ q
    case neg => simp [handle_pick, hqm]
    case pos =>
      cases cur with
      | none => simp [handle_pick, hqm]
      | some current =>
        cases oca with
        | none => simp [handle_pick, hqm]
        | some ca0 =>
          cases ocb with
          | none => simp [handle_pick, hqm]
          | some cb0 =>
            by_cases hcap : a ≠ ca0 ∧ a ≠ cb0
            · simp [handle_pick, hqm, hcap]
            · by_cases hturn : current ≠ a
              · simp [handle_pick, hqm, hcap, hturn]
              · by_cases hteam : t ∈ ta ∨ t ∈ tb
                · simp [handle_pick, hqm, hcap, hturn, hteam]
                · by_cases hwho : ca0 = current
                  · subst hwho
                    simp only [handle_pick, hqm, hcap, hturn, hteam]
                    split_ifs <;> simp
                  · simp only [handle_pick, hqm, hcap, hturn, hteam, hwho]
                    split_ifs <;> simp

/-- Side-pick frame: queue and ready queue untouched; the phase stays or
moves to `Ready`. -/
theorem handle_side_frame (side : String) (a : Nat) (s : ScrimState) :
    (handle_side_option side a s).1.ready_queue = s.ready_queue ∧
    (handle_side_option side a s).1.user_queue = s.user_queue ∧
    ((handle_side_option side a s).1.bot_state = s.bot_state ∨
     (handle_side_option side a s).1.bot_state = State.Ready) := by
  obtain ⟨bs, q, rq, ⟨oca, ocb, ta, tb, cur, sd⟩, cache, msgs, mp⟩ := s
  by_cases hbs : bs = State.SidePick
  case neg => simp [handle_side_option, hbs]
  case pos =>
    subst hbs
    cases ocb with
    | none => simp [handle_side_option]
    | some cb0 =>
      by_cases hwho : a ≠ cb0
      · simp [handle_side_option, hwho]
      · simp [handle_side_option, hwho]

/-- `handle_start` moves the phase away from `Queue` and keeps the ready
queue. -/
theorem qpnr_start (b : Bool) (s : ScrimState)
    (h : queue_phase_no_ready s) : queue_phase_no_ready (handle_start_model b s) := by
  obtain ⟨he1, he2, he3⟩ := handle_start_frame b s
  intro hph
  rw [he1]
  rcases he3 with he3 | he3 | he3
  · rw [he3] at hph; exact h hph
  · rw [he3] at hph; exact absurd hph (by decide)
  · rw [he3] at hph; exact absurd hph (by decide)

/-- `handle_captain` ends in `CaptainPick` or `Draft`, never `Queue`. -/
theorem qpnr_captain (a : Nat) (coin : Bool) (s : ScrimState)
    (h : queue_phase_no_ready s) : queue_phase_no_ready (handle_captain a coin s) := by
  obtain ⟨he1, he2, he3⟩ := handle_captain_frame a coin s
  intro hph
  rw [he1]
  rcases he3 with he3 | he3
  · rw [he3] at hph; exact h hph
  · rw [he3] at hph; exact absurd hph (by decide)

/-- `handle_pick` ends in `Draft` or `SidePick`, never `Queue`. -/
theorem qpnr_pick (a t : Nat) (s : ScrimState)
    (h : queue_phase_no_ready s) : queue_phase_no_ready (handle_pick a t s).1 := by
  obtain ⟨he1, he2, he3⟩ := handle_pick_frame a t s
  intro hph
  rw [he1]
  rcases he3 with he3 | he3
  · rw [he3] at hph; exact h hph
  · rw [he3] at hph; exact absurd hph (by decide)

/-- The side pick ends in `SidePick` or `Ready`, never `Queue`. -/
theorem qpnr_side (side : String) (a : Nat) (s : ScrimState)
    (h : queue_phase_no_ready s) : queue_phase_no_ready (handle_side_option side a s).1 := by
  obtain ⟨he1, he2, he3⟩ := handle_side_frame side a s
  intro hph
  rw [he1]
  rcases he3 with he3 | he3
  · rw [he3] at hph; exact h hph
  · rw [he3] at hph; exact absurd hph (by decide)

/-- `handle_ready`: the phase returns to `Queue` only through the full
reset, which empties the ready queue. -/
theorem qpnr_ready (a : Nat) (b : Bool) (s : ScrimState)
    (h : queue_phase_no_ready s) : queue_phase_no_ready (handle_ready a b s).1 := by
  obtain ⟨bs, q, rq, ⟨oca, ocb, ta, tb, cur, sd⟩, cache, msgs, mp⟩ := s
  by_cases hbs : bs = State.Ready
  case neg =>
    simp [handle_ready, hbs]
    exact h
  case pos =>
    subst hbs
    by_cases hqm : a ∈ q
    case neg =>
      simp [handle_ready, hqm]
      exact h
    case pos =>
      by_cases hrd : a ∈ rq
      · simp [handle_ready, hqm, hrd]
        exact h
      · simp [handle_ready, hqm, hrd]
        split_ifs with hlen
        · split
          · split_ifs with hemp
            · intro hph; exact State.noConfusion hph
            · intro hph; rfl
          · intro hph; exact State.noConfusion hph
        · intro hph; exact State.noConfusion hph

/-- `handle_unready` only shrinks the ready queue and acts in `Ready`. -/
theorem qpnr_unready (a : Nat) (s : ScrimState)
    (h : queue_phase_no_ready s) : queue_phase_no_ready (step (Cmd.unready a) s) := by
  show queue_phase_no_ready (match handle_unready a s with | some s2 => s2 | none => s)
  cases hu : handle_unready a s with
  | none => exact h
  | some s2 =>
    unfold handle_unready at hu
    split_ifs at hu with h1 h2
    all_goals try (injection hu with hu2; subst hu2; exact h)
    split at hu
    · exact Option.noConfusion hu
    · injection hu with hu2
      subst hu2
      intro hph
      rw [hph] at h1
      exact absurd (by decide) h1

/-- `handle_cancel` returns to `Queue` with an emptied ready queue. -/
theorem qpnr_cancel (s : ScrimState)
    (h : queue_phase_no_ready s) : queue_phase_no_ready (handle_cancel s) := by
  unfold handle_cancel
  split_ifs
  · exact h
  · intro hph; rfl

/-- Every command step preserves "empty ready queue while in phase
`Queue`". -/
theorem qpnr_step (c : Cmd) (s : ScrimState)
    (h : queue_phase_no_ready s) : queue_phase_no_ready (step c s) := by
  cases c with
  | join a n => exact qpnr_join a n s h
  | leave a => exact qpnr_leave a s h
  | clear => exact qpnr_clear s h
  | recover ms => exact qpnr_recover ms s h
  | steamid a arg => exact qpnr_steamid a arg s h
  | kick t => exact qpnr_kick t s h
  | addmap m => exact qpnr_addmap m s h
  | removemap m => exact qpnr_removemap m s h
  | start b => exact qpnr_start b s h
  | captain a coin => exact qpnr_captain a coin s h
  | pick a t => exact qpnr_pick a t s h
  | ct_side a => exact qpnr_side "ct" a s h
  | t_side a => exact qpnr_side "t" a s h
  | ready a b => exact qpnr_ready a b s h
  | unready a => exact qpnr_unready a s h
  | cancel => exact qpnr_cancel s h

/-- In every reachable state, phase `Queue` implies an empty ready queue. -/
theorem reachable_queue_phase_no_ready (s : ScrimState) (h : Reachable s) :
    queue_phase_no_ready s := by
  induction h with
  | init s0 h0 => intro hph; exact h0.2.2.1
  | next c s hs ih => exact qpnr_step c s ih

/-- Claim C5, counterexample: a reachable session state — ten joins,
`.start`, a full draft, a side pick, one `.ready`, then an admin `.clear`
during the ready check — in which player 1 is in the ready set but the
queue is empty, violating readySet ⊆ queue. -/
theorem clear_breaks_ready_subset :
    Reachable c5_state ∧ 1 ∈ c5_state.ready_queue ∧ 1 ∉ c5_state.user_queue := by
  refine ⟨?_, by decide, by decide⟩
  exact reachable_run c5_cmds s_startup (Reachable.init s_startup (by decide))

/-- Claim C5, amended: every operation except the queue-wiping admin
commands (`clear`, and `recover` which begins with the same wipe)
preserves readySet ⊆ queue from any reachable state in which it holds;
`clear` wipes only the queue in any phase, so outside phase `Queue` it can
leave ready players that are no longer queued. -/
theorem ready_subset_preserved_except_queue_wipes (s : ScrimState) (c : Cmd)
    (hs : Reachable s)
    (hsub : ∀ u ∈ s.ready_queue, u ∈ s.user_queue)
    (hclear : c ≠ Cmd.clear)
    (hrecover : ∀ ms, c ≠ Cmd.recover ms) :
    ∀ u ∈ (step c s).ready_queue, u ∈ (step c s).user_queue := by
  have hqp := reachable_queue_phase_no_ready s hs
  cases c with
  | join a n =>
    show ∀ u ∈ (handle_join a n s).ready_queue, u ∈ (handle_join a n s).user_queue
    unfold handle_join
    split_ifs
    all_goals first
      | exact hsub
      | (cases n <;> exact fun u hu => List.mem_append_left _ (hsub u hu))
  | leave a =>
    show ∀ u ∈ (handle_leave a s).ready_queue, u ∈ (handle_leave a s).user_queue
    unfold handle_leave
    split_ifs with h1 h2
    all_goals try exact hsub
    have hready : s.ready_queue = [] := hqp (not_ne_iff.mp h1)
    intro u hu
    have hu2 : u ∈ s.ready_queue := hu
    rw [hready] at hu2
    exact absurd hu2 (List.not_mem_nil u)
  | clear => exact absurd rfl hclear
  | recover ms => exact absurd rfl (hrecover ms)
  | steamid a arg =>
    show ∀ u ∈ (handle_steam_id a arg s).ready_queue,
      u ∈ (handle_steam_id a arg s).user_queue
    unfold handle_steam_id
    repeat' split
    all_goals exact hsub
  | kick t =>
    show ∀ u ∈ (handle_kick t s).ready_queue, u ∈ (handle_kick t s).user_queue
    unfold handle_kick
    split_ifs with h1 h2
    all_goals try exact hsub
    have hready : s.ready_queue = [] := hqp (not_ne_iff.mp h1)
    intro u hu
    have hu2 : u ∈ s.ready_queue := hu
    rw [hready] at hu2
    exact absurd hu2 (List.not_mem_nil u)
  | addmap m =>
    show ∀ u ∈ (handle_add_map m s).ready_queue, u ∈ (handle_add_map m s).user_queue
    unfold handle_add_map
    split_ifs <;> exact hsub
  | removemap m =>
    show ∀ u ∈ (handle_remove_map m s).ready_queue,
      u ∈ (handle_remove_map m s).user_queue
    unfold handle_remove_map
    split_ifs <;> exact hsub
  | start b =>
    obtain ⟨he1, he2, -⟩ := handle_start_frame b s
    show ∀ u ∈ (handle_start_model b s).ready_queue,
      u ∈ (handle_start_model b s).user_queue
    rw [he1, he2]
    exact hsub
  | captain a coin =>
    obtain ⟨he1, he2, -⟩ := handle_captain_frame a coin s
    show ∀ u ∈ (handle_captain a coin s).ready_queue,
      u ∈ (handle_captain a coin s).user_queue
    rw [he1, he2]
    exact hsub
  | pick a t =>
    obtain ⟨he1, he2, -⟩ := handle_pick_frame a t s
    show ∀ u ∈ (handle_pick a t s).1.ready_queue,
      u ∈ (handle_pick a t s).1.user_queue
    rw [he1, he2]
    exact hsub
  | ct_side a =>
    obtain ⟨he1, he2, -⟩ := handle_side_frame "ct" a s
    show ∀ u ∈ (handle_side_option "ct" a s).1.ready_queue,
      u ∈ (handle_side_option "ct" a s).1.user_queue
    rw [he1, he2]
    exact hsub
  | t_side a =>
    obtain ⟨he1, he2, -⟩ := handle_side_frame "t" a s
    show ∀ u ∈ (handle_side_option "t" a s).1.ready_queue,
      u ∈ (handle_side_option "t" a s).1.user_queue
    rw [he1, he2]
    exact hsub
  | ready a b =>
    show ∀ u ∈ (handle_ready a b s).1.ready_queue,
      u ∈ (handle_ready a b s).1.user_queue
    rcases handle_ready_frame a b s with he | ⟨he1, he2⟩ | ⟨hmem, he1, he2⟩
    · intro u hu
      rw [he] at hu
      exact absurd hu (List.not_mem_nil u)
    · rw [he1, he2]
      exact hsub
    · rw [he1, he2]
      intro u hu
      rcases List.mem_append.mp hu with hu | hu
      · exact hsub u hu
      · rw [List.mem_singleton.mp hu]
        exact hmem
  | unready a =>
    show ∀ u ∈ (match handle_unready a s with
        | some s2 => s2 | none => s).ready_queue,
      u ∈ (match handle_unready a s with | some s2 => s2 | none => s).user_queue
    cases hu : handle_unready a s with
    | none => exact hsub
    | some s2 =>
      unfold handle_unready at hu
      split_ifs at hu with h1 h2
      all_goals try (injection hu with hu2; subst hu2; exact hsub)
      split at hu
      · exact Option.noConfusion hu
      · injection hu with hu2
        subst hu2
        intro u hmem
        exact hsub u (List.eraseIdx_subset _ _ hmem)
  | cancel =>
    show ∀ u ∈ (handle_cancel s).ready_queue, u ∈ (handle_cancel s).user_queue
    unfold handle_cancel
    split_ifs
    · exact hsub
    · exact fun u hu => absurd hu (List.not_mem_nil u)

/-- Witness for the amended C5 theorem: a join step from the concrete
startup state. -/
theorem ready_subset_preserved_except_queue_wipes_witness :
    Reachable s_startup ∧
    (∀ u ∈ s_startup.ready_queue, u ∈ s_startup.user_queue) ∧
    Cmd.join 1 none ≠ Cmd.clear ∧
    (∀ ms, Cmd.join 1 none ≠ Cmd.recover ms) ∧
    (∀ u ∈ (step (Cmd.join 1 none) s_startup).ready_queue,
      u ∈ (step (Cmd.join 1 none) s_startup).user_queue) := by
  have h0 : Reachable s_startup := Reachable.init s_startup (by decide)
  refine ⟨h0, by decide, by decide, fun ms hh => Cmd.noConfusion hh, ?_⟩
  exact ready_subset_preserved_except_queue_wipes s_startup (Cmd.join 1 none) h0
    (by decide) (by decide) (fun ms hh => Cmd.noConfusion hh)

end Scrimbot
